import Mathlib

/-!
Verification of the symbol-table and scope-resolution subsystem of the lacc
C front end, against its natural-language specification.

The repository contains two alternate implementations of the subsystem:
* `src/parser/symtab.c` (the newer one) — embedded below at top level;
* `src/symtab.c` (the older one) — embedded below in namespace `V0`.

The type component (`typetree.c`), the diagnostic component (`context.c`)
and the symbol record header (`symbol.h`) are external collaborators of the
subsystem and are not part of the given sources; the definitions for them
below are modelled from the specification and are marked as such in their
doc comments.  Everything else is translated directly from the two C files.

Conventions of the embedding:
* heap pointers to `struct symbol` become indices into an append-only
  arena `St.store`; `free` is modelled by dropping every reference to the
  slot (records of freed slots are retained in the arena so that indices
  stay stable; the arena length therefore counts allocations, which is the
  allocation counter the spec's §8 "temporary recycling" property needs);
* `error(...)` is a diagnostic that is recorded and returns (the sources
  follow every fatal `error` call with an explicit `exit(1)`); `exit(1)`
  is modelled as an `Except.error` outcome, which carries no state — the
  process is gone;
* hash tables become association lists keyed by symbol name;
* `assert` is compiled out (NDEBUG semantics): the model is total and the
  claims only quantify over states satisfying the caller contract.
-/

/-- Modelled from the spec: the type representation component (`typetree.c`
is not part of the given sources).  A type is a scalar/base type, a
function type with a return type and a parameter (member) list, or an
array type with an element type and a length.  Per the spec's glossary, an
array of unknown length is incomplete (length 0, giving it size 0), and a
function with an unresolved parameter list is recorded with an empty
member list (member count 0), matching the older implementation's use of
`type.n == 0` for such types. -/
inductive CType where
  | base (id : Nat)
  | func (ret : CType) (params : List CType)
  | array (elem : CType) (len : Nat)

mutual

/-- Structural equality test on types, Boolean form (helper for the
decidable equality instance). -/
def CType.beq : CType → CType → Bool
  | .base a, .base b => a == b
  | .func r1 p1, .func r2 p2 => CType.beq r1 r2 && CType.beqList p1 p2
  | .array e1 n1, .array e2 n2 => CType.beq e1 e2 && n1 == n2
  | _, _ => false

/-- Pointwise structural equality on parameter lists. -/
def CType.beqList : List CType → List CType → Bool
  | [], [] => true
  | x :: xs, y :: ys => CType.beq x y && CType.beqList xs ys
  | _, _ => false

end

mutual

theorem CType.beq_iff : ∀ a b : CType, CType.beq a b = true ↔ a = b
  | .base a, .base b => by simp [CType.beq]
  | .base _, .func _ _ => by simp [CType.beq]
  | .base _, .array _ _ => by simp [CType.beq]
  | .func _ _, .base _ => by simp [CType.beq]
  | .func r1 p1, .func r2 p2 => by
      simp [CType.beq, CType.beq_iff r1 r2, CType.beqList_iff p1 p2]
  | .func _ _, .array _ _ => by simp [CType.beq]
  | .array _ _, .base _ => by simp [CType.beq]
  | .array _ _, .func _ _ => by simp [CType.beq]
  | .array e1 n1, .array e2 n2 => by simp [CType.beq, CType.beq_iff e1 e2]

theorem CType.beqList_iff : ∀ a b : List CType, CType.beqList a b = true ↔ a = b
  | [], [] => by simp [CType.beqList]
  | [], _ :: _ => by simp [CType.beqList]
  | _ :: _, [] => by simp [CType.beqList]
  | x :: xs, y :: ys => by
      simp [CType.beqList, CType.beq_iff x y, CType.beqList_iff xs ys]

end

instance : DecidableEq CType := fun a b =>
  decidable_of_iff (CType.beq a b = true) (CType.beq_iff a b)

/-- Modelled from the spec: the type component's structural equality query
(`type_equal`). -/
def type_equal (a b : CType) : Bool := CType.beq a b

theorem type_equal_iff (a b : CType) : type_equal a b = true ↔ a = b :=
  CType.beq_iff a b

/-- Modelled from the spec: `is_function` classification query. -/
def is_function : CType → Bool
  | .func _ _ => true
  | .base _ => false
  | .array _ _ => false

/-- Modelled from the spec: `is_array` classification query. -/
def is_array : CType → Bool
  | .array _ _ => true
  | .base _ => false
  | .func _ _ => false

/-- Modelled from the spec: `type_next` decomposition — return type of a
function, element type of an array (identity on scalars, where the C code
never calls it). -/
def type_next : CType → CType
  | .func r _ => r
  | .array e _ => e
  | .base i => .base i

/-- Modelled from the spec: `nmembers` decomposition — the member
(parameter) count of a function type. -/
def nmembers : CType → Nat
  | .func _ p => p.length
  | .base _ => 0
  | .array _ _ => 0

/-- Modelled from the spec: the size query.  Only its zero/nonzero status
on array types is inspected by the symbol table (an array of unknown
length has size 0); scalars get a nominal nonzero size and function types
size 0. -/
def size_of : CType → Nat
  | .base _ => 1
  | .func _ _ => 0
  | .array e n => n * size_of e

/-- Modelled from the spec: `type_array_len` query. -/
def type_array_len : CType → Nat
  | .array _ n => n
  | .base _ => 0
  | .func _ _ => 0

/-- Modelled from the spec: `set_array_length` in-place completion of an
array type's length. -/
def set_array_length : CType → Nat → CType
  | .array e _, m => .array e m
  | .base i, _ => .base i
  | .func r p, _ => .func r p

/-- The `void` basic type (`basic_type__void`). -/
def void_t : CType := .base 0

/-- The `char` basic type (`basic_type__char`). -/
def char_t : CType := .base 1

/-- Modelled from the spec (the `symbol.h` header is not part of the given
sources): symbol kind, one of tentative, definition, declaration, typedef,
tag, constant, string-literal, label, in the spec's order (so the all-zero
record decodes to `tentative`). -/
inductive Symtype where
  | tentative
  | definition
  | declaration
  | typedef
  | tag
  | constant
  | stringval
  | label
deriving DecidableEq

/-- Modelled from the spec: linkage, one of none, internal, external.
`none` is the zero value: the older implementation's builtin initializers
(`struct symbol sym = {"__builtin_va_start", { NONE }, SYM_DECLARATION}`)
leave the linkage field zeroed for symbols that must have no linkage. -/
inductive Linkage where
  | nolink
  | intern
  | ext
deriving DecidableEq

/-- The fatal diagnostics the subsystem can raise. -/
inductive Err where
  | incompatible
  | conflictingTypes
  | mismatch
  | duplicate
  | undefinedLabel
deriving DecidableEq

/-- Modelled from the spec: one symbol record (`struct symbol`; the header
is not in the given sources, the fields are the ones the two C files and
the spec's data model use).  `stack_offset` stands for the backend-filled
fields the core stores opaquely; `value_i`/`value_s` model the constant /
string-literal value union. -/
structure Symb where
  name : String
  n : Nat
  type : CType
  symtype : Symtype
  linkage : Linkage
  depth : Nat
  referenced : Bool
  stack_offset : Int
  value_i : Int
  value_s : String
deriving DecidableEq

/-- The all-zero symbol record, as produced by `calloc`/`memset`. -/
def zeroSym : Symb :=
  { name := "", n := 0, type := .base 0, symtype := .tentative,
    linkage := .nolink, depth := 0, referenced := false,
    stack_offset := 0, value_i := 0, value_s := "" }

/-- Scope frame states of the newer implementation (`SCOPE_CREATED`,
`SCOPE_DIRTY`, `SCOPE_INITIALIZED`). -/
inductive ScopeState where
  | created
  | dirty
  | populated
deriving DecidableEq

/-- One scope frame of the newer implementation: its reuse state and its
lookup table (a hash table in C, an index list keyed by symbol name
here). -/
structure Frame where
  state : ScopeState
  table : List Nat
deriving DecidableEq

/-- One namespace of the newer implementation: the ever-created scope
frames (`frames.length` is `max_scope_depth`), the number of currently
active frames (`array_len(&ns->scope)`), and the master symbol list. -/
structure NS where
  frames : List Frame
  len : Nat
  symbol : List Nat
deriving DecidableEq

/-- Identity of the three namespace instances. -/
inductive NSId where
  | ident
  | label
  | tag
deriving DecidableEq

/-- Whole-subsystem state of the newer implementation: the symbol arena,
the temporary recycling pool, the cross-scope function table, the three
namespaces, the recorded (non-fatal) diagnostics, and the file-static
counters (`n` in `sym_add`, `sym_create_temporary`, `sym_create_unnamed`,
`sym_create_label`, `sym_create_constant`, `sym_create_string`) plus the
`decl_memcpy` backend reference. -/
structure St where
  store : List Symb
  temporaries : List Nat
  functions : List Nat
  identNS : NS
  labelNS : NS
  tagNS : NS
  diag : List Err
  n_static : Nat
  n_tmp : Nat
  n_unnamed : Nat
  n_label : Nat
  n_constant : Nat
  n_string : Nat
  decl_memcpy : Option Nat
deriving DecidableEq

/-- The namespace selected by an identifier. -/
def St.nsOf (st : St) : NSId → NS
  | .ident => st.identNS
  | .label => st.labelNS
  | .tag => st.tagNS

/-- Replace the selected namespace. -/
def St.withNS (st : St) : NSId → NS → St
  | .ident, ns => { st with identNS := ns }
  | .label, ns => { st with labelNS := ns }
  | .tag, ns => { st with tagNS := ns }

/-- Replace the symbol arena. -/
def St.withStore (st : St) (s : List Symb) : St := { st with store := s }

/-- The empty initial state (all C statics zero-initialized). -/
def emptySt : St :=
  { store := [], temporaries := [], functions := [],
    identNS := ⟨[], 0, []⟩, labelNS := ⟨[], 0, []⟩, tagNS := ⟨[], 0, []⟩,
    diag := [], n_static := 0, n_tmp := 0, n_unnamed := 0, n_label := 0,
    n_constant := 0, n_string := 0, decl_memcpy := none }

/-- `alloc_sym`: pop the last entry of the recycling pool and zero it, or
allocate a fresh zeroed slot. -/
def alloc_sym (st : St) : Nat × St :=
  match st.temporaries.getLast? with
  | some i =>
      (i, { st with temporaries := st.temporaries.dropLast,
                    store := st.store.set i zeroSym })
  | none => (st.store.length, { st with store := st.store ++ [zeroSym] })

/-- `push_scope` of the newer implementation: reuse the frame at the next
depth if one was ever created (marking a previously populated frame dirty),
else allocate a fresh `SCOPE_CREATED` frame. -/
def push_scope (nsid : NSId) (st : St) : St :=
  let ns := st.nsOf nsid
  if ns.len < ns.frames.length then
    let f := ns.frames.getD ns.len ⟨.created, []⟩
    let f2 := if f.state = ScopeState.populated then { f with state := .dirty } else f
    st.withNS nsid { ns with len := ns.len + 1, frames := ns.frames.set ns.len f2 }
  else
    st.withNS nsid { ns with len := ns.len + 1, frames := ns.frames ++ [⟨.created, []⟩] }

/-- `current_scope_depth`. -/
def current_scope_depth (nsid : NSId) (st : St) : Nat := (st.nsOf nsid).len - 1

/-- The scope scan of `sym_lookup`: probe frames at depths `d-1, …, 0`,
skipping frames not in the populated (`SCOPE_INITIALIZED`) state, and
return the first index whose symbol has the wanted name. -/
def scopes_find (store : List Symb) (frames : List Frame) (name : String) : Nat → Option Nat
  | 0 => none
  | d + 1 =>
    let f := frames.getD d ⟨.created, []⟩
    match (if f.state = ScopeState.populated then
             f.table.find? (fun i => (store.getD i zeroSym).name == name)
           else none) with
    | some i => some i
    | none => scopes_find store frames name d

/-- `sym_lookup` of the newer implementation: innermost-first scan; a found
symbol is marked `referenced` as a side effect. -/
def sym_lookup (nsid : NSId) (name : String) (st : St) : Option Nat × St :=
  let ns := st.nsOf nsid
  match scopes_find st.store ns.frames name ns.len with
  | some i =>
      (some i,
       st.withStore (st.store.set i { st.store.getD i zeroSym with referenced := true }))
  | none => (none, st)

/-- `pop_scope` of the newer implementation.  Popping the last scope tears
the namespace down: every frame and every owned symbol is freed, and for
the label namespace an "undefined label" diagnostic is recorded for every
symbol still tentative (the C code calls `error` here with no `exit`, so
the teardown continues and the call returns); for the identifier namespace
the recycling pool and the function table are also cleared.  Popping an
inner scope only decrements the active-frame count. -/
def pop_scope (nsid : NSId) (st : St) : St :=
  let ns := st.nsOf nsid
  if ns.len = 0 then st
  else if ns.len = 1 then
    let newDiag :=
      if nsid = NSId.label then
        st.diag ++ ns.symbol.filterMap
          (fun i => if (st.store.getD i zeroSym).symtype = Symtype.tentative
                    then some Err.undefinedLabel else none)
      else st.diag
    let st1 := st.withNS nsid ⟨[], 0, []⟩
    let st2 := { st1 with diag := newDiag }
    if nsid = NSId.ident then { st2 with temporaries := [], functions := [] } else st2
  else
    st.withNS nsid { ns with len := ns.len - 1 }

/-- `sym_lookup_function`: probe the cross-scope function table by name. -/
def sym_lookup_function (name : String) (st : St) : Option Nat :=
  st.functions.find? (fun i => (st.store.getD i zeroSym).name == name)

/-- `apply_type` of the newer implementation: merge an incoming declared
type into an existing symbol's type, or fail with the incompatible-
declaration diagnostic (`error` + `exit(1)`). -/
def apply_type (s : Symb) (ty : CType) : Except Err Symb :=
  if type_equal s.type ty ∧ ¬(is_function s.type ∧ s.symtype ≠ Symtype.definition) then
    Except.ok s
  else
    match s.type with
    | CType.func _ p1 =>
        if is_function ty ∧ type_equal (type_next s.type) (type_next ty) then
          if p1.length = nmembers ty then Except.ok { s with type := ty }
          else Except.error Err.incompatible
        else Except.error Err.incompatible
    | CType.array _ _ =>
        if is_array ty ∧ type_equal (type_next s.type) (type_next ty) then
          Except.ok (if size_of s.type = 0
                     then { s with type := set_array_length s.type (type_array_len ty) }
                     else s)
        else Except.error Err.incompatible
    | _ => Except.error Err.incompatible

/-- `sym_make_visible`: register a symbol in the current (innermost) scope
frame's lookup table, lazily clearing a dirty frame. -/
def sym_make_visible (nsid : NSId) (i : Nat) (st : St) : St :=
  let ns := st.nsOf nsid
  let top := ns.len - 1
  let f := ns.frames.getD top ⟨.created, []⟩
  let tbl := match f.state with
    | ScopeState.created => [i]
    | ScopeState.dirty => [i]
    | ScopeState.populated => f.table ++ [i]
  st.withNS nsid { ns with frames := ns.frames.set top ⟨.populated, tbl⟩ }

/-- The symbol-creation tail of `sym_add` (the code after the merge
attempts): allocate, fill in the record, assign a fresh disambiguation
counter to internal-linkage symbols at non-file scope, append to the
master list, make visible, and index function types in the cross-scope
function table.  (`type_set_tag` for tags/typedefs mutates only the
external type component and has no symbol-table effect to model.) -/
def sym_add_create (nsid : NSId) (name : String) (ty : CType) (k : Symtype)
    (l : Linkage) (st : St) : Except Err (Nat × St) :=
  let a := alloc_sym st
  let i := a.1
  let st1 := a.2
  let d := current_scope_depth nsid st1
  let fresh : Bool := l = Linkage.intern ∧ d ≠ 0
  let s : Symb := { zeroSym with
    depth := d, name := name, type := ty, symtype := k, linkage := l,
    n := if fresh then st1.n_static + 1 else 0 }
  let st2 := st1.withStore (st1.store.set i s)
  let st3 := if st2.decl_memcpy = none ∧ name = "memcpy"
             then { st2 with decl_memcpy := some i } else st2
  let st4 := if fresh then { st3 with n_static := st3.n_static + 1 } else st3
  let ns := st4.nsOf nsid
  let st5 := st4.withNS nsid { ns with symbol := ns.symbol ++ [i] }
  let st6 := sym_make_visible nsid i st5
  let st7 := if is_function ty then { st6 with functions := st6.functions ++ [i] } else st6
  Except.ok (i, st7)

/-- The cross-scope coercion branch of `sym_add`: an invisible function
redeclaration resolves to the symbol recorded in the function table — merge
the types, make it visible here, and lower its recorded depth if the
current scope is shallower. -/
def sym_add_coerce (nsid : NSId) (ty : CType) (st : St) (i : Nat) :
    Except Err (Nat × St) :=
  match apply_type (st.store.getD i zeroSym) ty with
  | Except.error e => Except.error e
  | Except.ok s2 =>
    let st2 := st.withStore (st.store.set i s2)
    let st3 := sym_make_visible nsid i st2
    let d := current_scope_depth nsid st3
    let st4 := if d < s2.depth
               then st3.withStore (st3.store.set i { s2 with depth := d })
               else st3
    Except.ok (i, st4)

/-- The visible-symbol branch of `sym_add`: extern-declaration completion,
the file-scope merge rules, or the duplicate-definition error; a symbol
visible from an outer scope falls through to creation (shadowing). -/
def sym_add_found (nsid : NSId) (name : String) (ty : CType) (k : Symtype)
    (l : Linkage) (st : St) (i : Nat) : Except Err (Nat × St) :=
  let s := st.store.getD i zeroSym
  let d := current_scope_depth nsid st
  if l = Linkage.ext ∧ k = Symtype.declaration ∧
      (s.symtype = Symtype.tentative ∨ s.symtype = Symtype.definition) then
    match apply_type s ty with
    | Except.error e => Except.error e
    | Except.ok s2 => Except.ok (i, st.withStore (st.store.set i s2))
  else if s.depth = d ∧ s.depth = 0 then
    if s.linkage = l ∧ ((s.symtype = Symtype.tentative ∧ k = Symtype.definition) ∨
        (s.symtype = Symtype.definition ∧ k = Symtype.tentative)) then
      match apply_type s ty with
      | Except.error e => Except.error e
      | Except.ok s2 =>
          Except.ok (i, st.withStore (st.store.set i { s2 with symtype := Symtype.definition }))
    else if s.linkage = l ∧ s.symtype = Symtype.declaration ∧ k = Symtype.tentative then
      match apply_type s ty with
      | Except.error e => Except.error e
      | Except.ok s2 =>
          Except.ok (i, st.withStore (st.store.set i { s2 with symtype := Symtype.tentative }))
    else if s.linkage = l ∧ s.symtype = Symtype.definition ∧ k = Symtype.declaration then
      if type_equal s.type ty then Except.ok (i, st)
      else Except.error Err.conflictingTypes
    else if s.symtype ≠ k ∨ s.linkage ≠ l then Except.error Err.mismatch
    else
      match apply_type s ty with
      | Except.error e => Except.error e
      | Except.ok s2 => Except.ok (i, st.withStore (st.store.set i s2))
  else if s.depth = d ∧ s.depth ≠ 0 then Except.error Err.duplicate
  else sym_add_create nsid name ty k l st

/-- `sym_add` of the newer implementation. -/
def sym_add (nsid : NSId) (name : String) (ty : CType) (k : Symtype)
    (l : Linkage) (st : St) : Except Err (Nat × St) :=
  if k = Symtype.stringval then sym_add_create nsid name ty k l st
  else
    match sym_lookup nsid name st with
    | (some i, st1) => sym_add_found nsid name ty k l st1 i
    | (none, st1) =>
      if is_function ty then
        match sym_lookup_function name st1 with
        | some i => sym_add_coerce nsid ty st1 i
        | none => sym_add_create nsid name ty k l st1
      else sym_add_create nsid name ty k l st1

/-- `sym_create_temporary`. -/
def sym_create_temporary (ty : CType) (st : St) : Nat × St :=
  let a := alloc_sym st
  let s : Symb := { zeroSym with
    symtype := Symtype.definition, linkage := Linkage.nolink,
    name := ".t", type := ty, n := a.2.n_tmp + 1 }
  (a.1, { a.2 with store := a.2.store.set a.1 s, n_tmp := a.2.n_tmp + 1 })

/-- `sym_create_unnamed`: internal linkage at file scope, no linkage
otherwise; not entered into any scope and not appended to any master
list. -/
def sym_create_unnamed (ty : CType) (st : St) : Nat × St :=
  let a := alloc_sym st
  let l := if current_scope_depth NSId.ident a.2 = 0 then Linkage.intern else Linkage.nolink
  let s : Symb := { zeroSym with
    linkage := l, symtype := Symtype.definition,
    name := ".u", type := ty, n := a.2.n_unnamed + 1 }
  (a.1, { a.2 with store := a.2.store.set a.1 s, n_unnamed := a.2.n_unnamed + 1 })

/-- `sym_create_label`. -/
def sym_create_label (st : St) : Nat × St :=
  let a := alloc_sym st
  let s : Symb := { zeroSym with
    type := void_t, symtype := Symtype.label,
    linkage := Linkage.intern, name := ".L", n := a.2.n_label + 1 }
  (a.1, { a.2 with store := a.2.store.set a.1 s, n_label := a.2.n_label + 1 })

/-- `sym_create_constant`: appended to the identifier master list. -/
def sym_create_constant (ty : CType) (v : Int) (st : St) : Nat × St :=
  let a := alloc_sym st
  let s : Symb := { zeroSym with
    type := ty, value_i := v, symtype := Symtype.constant,
    linkage := Linkage.intern, name := ".C", n := a.2.n_constant + 1 }
  let st2 := { a.2 with store := a.2.store.set a.1 s, n_constant := a.2.n_constant + 1 }
  (a.1, { st2 with identNS := { st2.identNS with symbol := st2.identNS.symbol ++ [a.1] } })

/-- `sym_create_string`: type is `char[len+1]`; appended to the identifier
master list. -/
def sym_create_string (v : String) (st : St) : Nat × St :=
  let a := alloc_sym st
  let s : Symb := { zeroSym with
    type := CType.array char_t (v.length + 1),
    value_s := v, symtype := Symtype.stringval,
    linkage := Linkage.intern, name := ".LC", n := a.2.n_string + 1 }
  let st2 := { a.2 with store := a.2.store.set a.1 s, n_string := a.2.n_string + 1 }
  (a.1, { st2 with identNS := { st2.identNS with symbol := st2.identNS.symbol ++ [a.1] } })

/-- `sym_discard`: release a symbol back to the recycling pool
(`array_push_back(&temporaries, sym)`). -/
def sym_discard (i : Nat) (st : St) : St :=
  { st with temporaries := st.temporaries ++ [i] }

/-- Decimal digit characters of a number, most significant first — the
rendering `snprintf`'s `%d` produces for a nonnegative value. -/
def decChars (n : Nat) : List Char := ((Nat.digits 10 n).map Nat.digitChar).reverse

/-- Decimal string of a number. -/
def decStr (n : Nat) : String := ⟨decChars n⟩

/-- `sym_name`: the canonical emitted name — the raw name if the
disambiguation counter is 0, the name directly followed by the counter for
generated names beginning with a period, and `name.counter` otherwise. -/
def sym_name (s : Symb) : String :=
  if s.n = 0 then s.name
  else if s.name.startsWith "." then s.name ++ decStr s.n
  else s.name ++ "." ++ decStr s.n

namespace V0

/-- One namespace of the older implementation (`src/symtab.c`): the master
symbol list (`ns->symbol`, stable indices standing for the stable symbol
addresses), the scope stack (`ns->scope`, each scope its registered index
list in insertion order; the list length is `current_depth + 1`, the empty
list the `scope == NULL` state), and the file-static scoped-static counter
`svc` of `sym_add`.  The older implementation never frees symbol records,
so the master list only grows. -/
structure NS where
  symbol : List Symb
  scopes : List (List Nat)
  svc : Nat
deriving DecidableEq

/-- The zero-initialized namespace. -/
def emptyNS : NS := { symbol := [], scopes := [], svc := 0 }

/-- `push_scope` of the older implementation: grow the scope array by one
zeroed scope (the first push from the `scope == NULL` state lands at
depth 0). -/
def push_scope (ns : NS) : NS := { ns with scopes := ns.scopes ++ [[]] }

/-- `pop_scope` of the older implementation: free the top scope's index
array and drop it; when the outermost scope is popped the scope array
itself is freed.  Symbol records are never freed. -/
def pop_scope (ns : NS) : NS :=
  if ns.scopes.isEmpty then ns else { ns with scopes := ns.scopes.dropLast }

/-- `current_depth` of the older implementation. -/
def depth (ns : NS) : Nat := ns.scopes.length - 1

/-- The innermost-first scope scan of the older implementation's
`sym_lookup`: within one scope the indices are probed in insertion order
(`strcmp` against each registered symbol's name). -/
def scan (syms : List Symb) (scopes : List (List Nat)) (name : String) : Nat → Option Nat
  | 0 => none
  | d + 1 =>
    match (scopes.getD d []).find? (fun i => (syms.getD i zeroSym).name == name) with
    | some i => some i
    | none => scan syms scopes name d

/-- `sym_lookup` of the older implementation.  It has no side effect: the
found symbol is returned as is (in particular nothing sets a
`referenced` mark). -/
def sym_lookup (ns : NS) (name : String) : Option Nat :=
  scan ns.symbol ns.scopes name ns.scopes.length

/-- `apply_type` of the older implementation.  For function types it
compares only the return types and adopts the incoming parameter list when
the existing member count is zero (unset) or equal to the incoming count;
for arrays it completes an unknown size.  (The `flags` comparison has no
counterpart in the modelled type component, which carries no
qualifiers.) -/
def apply_type (s : Symb) (ty : CType) : Except Err Symb :=
  if type_equal s.type ty ∧ ¬(is_function s.type ∧ s.symtype ≠ Symtype.definition) then
    Except.ok s
  else
    match s.type, ty with
    | CType.func r1 p1, CType.func r2 p2 =>
        if type_equal r1 r2 then
          if p1.length = 0 ∨ p1.length = p2.length then
            Except.ok { s with type := CType.func r1 p2 }
          else Except.error Err.incompatible
        else Except.error Err.incompatible
    | CType.array e1 n1, CType.array _ n2 =>
        if type_equal e1 (type_next ty) then
          Except.ok (if n1 = 0 then { s with type := CType.array e1 n2 } else s)
        else Except.error Err.incompatible
    | _, _ => Except.error Err.incompatible

/-- `create_symbol` + `register_in_scope`: append the record (with the
current depth) to the master list and its index to the innermost scope. -/
def create_and_register (ns : NS) (s : Symb) : Nat × NS :=
  let s2 := { s with depth := depth ns }
  let i := ns.symbol.length
  let top := ns.scopes.length - 1
  (i, { ns with symbol := ns.symbol ++ [s2],
                scopes := ns.scopes.set top ((ns.scopes.getD top []) ++ [i]) })

/-- `sym_add` of the older implementation (the argument record's `name`,
`type`, `symtype`, `linkage` are the ones its callers fill in). -/
def sym_add (name : String) (ty : CType) (k : Symtype) (l : Linkage)
    (ns : NS) : Except Err (Nat × NS) :=
  let d := depth ns
  match sym_lookup ns name with
  | some i =>
    let s := ns.symbol.getD i zeroSym
    if l = Linkage.ext ∧ k = Symtype.declaration ∧
        (s.symtype = Symtype.tentative ∨ s.symtype = Symtype.definition) then
      match apply_type s ty with
      | Except.error e => Except.error e
      | Except.ok s2 => Except.ok (i, { ns with symbol := ns.symbol.set i s2 })
    else if s.depth = d ∧ d = 0 then
      if s.linkage = l ∧ ((s.symtype = Symtype.tentative ∧ k = Symtype.definition) ∨
          (s.symtype = Symtype.definition ∧ k = Symtype.tentative)) then
        match apply_type s ty with
        | Except.error e => Except.error e
        | Except.ok s2 =>
            Except.ok (i, { ns with symbol := ns.symbol.set i { s2 with symtype := Symtype.definition } })
      else if s.linkage = l ∧ s.symtype = Symtype.declaration ∧ k = Symtype.tentative then
        match apply_type s ty with
        | Except.error e => Except.error e
        | Except.ok s2 =>
            Except.ok (i, { ns with symbol := ns.symbol.set i { s2 with symtype := Symtype.tentative } })
      else if s.symtype ≠ k ∨ s.linkage ≠ l then Except.error Err.mismatch
      else
        match apply_type s ty with
        | Except.error e => Except.error e
        | Except.ok s2 => Except.ok (i, { ns with symbol := ns.symbol.set i s2 })
    else if s.depth = d ∧ d ≠ 0 then Except.error Err.duplicate
    else
      let svc2 := if l = Linkage.intern ∧ d ≠ 0 then ns.svc + 1 else ns.svc
      let s2 : Symb := { zeroSym with
        name := name, type := ty, symtype := k, linkage := l,
        n := if l = Linkage.intern ∧ d ≠ 0 then ns.svc + 1 else 0 }
      let r := create_and_register { ns with svc := svc2 } s2
      Except.ok r
  | none =>
      let svc2 := if l = Linkage.intern ∧ d ≠ 0 then ns.svc + 1 else ns.svc
      let s2 : Symb := { zeroSym with
        name := name, type := ty, symtype := k, linkage := l,
        n := if l = Linkage.intern ∧ d ≠ 0 then ns.svc + 1 else 0 }
      let r := create_and_register { ns with svc := svc2 } s2
      Except.ok r

end V0

/-- One call through the public interface of the newer implementation
(scope entry/exit, lookup, declaration add, generated-symbol creation,
temporary release). -/
inductive SOp where
  | push (nsid : NSId)
  | pop (nsid : NSId)
  | lkp (nsid : NSId) (name : String)
  | add (nsid : NSId) (name : String) (ty : CType) (k : Symtype) (l : Linkage)
  | mktemp (ty : CType)
  | mkunnamed (ty : CType)
  | mklabel
  | mkconstant (ty : CType) (v : Int)
  | mkstring (v : String)
  | discard (i : Nat)
deriving DecidableEq

/-- Execute one public call on the newer implementation's state (dropping
the returned symbol; an error is a process exit). -/
def stepOp : SOp → St → Except Err St
  | SOp.push nsid, st => Except.ok (push_scope nsid st)
  | SOp.pop nsid, st => Except.ok (pop_scope nsid st)
  | SOp.lkp nsid name, st => Except.ok (sym_lookup nsid name st).2
  | SOp.add nsid name ty k l, st =>
      match sym_add nsid name ty k l st with
      | Except.error e => Except.error e
      | Except.ok r => Except.ok r.2
  | SOp.mktemp ty, st => Except.ok (sym_create_temporary ty st).2
  | SOp.mkunnamed ty, st => Except.ok (sym_create_unnamed ty st).2
  | SOp.mklabel, st => Except.ok (sym_create_label st).2
  | SOp.mkconstant ty v, st => Except.ok (sym_create_constant ty v st).2
  | SOp.mkstring v, st => Except.ok (sym_create_string v st).2
  | SOp.discard i, st => Except.ok (sym_discard i st)

/-- One call of the interface common to the two implementations, on the
identifier namespace. -/
inductive Op where
  | push
  | pop
  | lkp (name : String)
  | add (name : String) (ty : CType) (k : Symtype) (l : Linkage)
deriving DecidableEq

/-- What a caller observes of one call: scope pushes/pops, the lookup
outcome, and for an add the returned symbol — its identity (arena index)
and its resulting kind, linkage and merged type. -/
inductive Obs where
  | pushed
  | popped
  | found (r : Option Nat)
  | added (i : Nat) (k : Symtype) (l : Linkage) (t : CType)
deriving DecidableEq

/-- Run a call sequence on the newer implementation from a given state,
collecting observations; a fatal error aborts the run. -/
def traceNewFrom : List Op → St → Except Err (List Obs)
  | [], _ => Except.ok []
  | Op.push :: ops, st =>
      match traceNewFrom ops (push_scope NSId.ident st) with
      | Except.error e => Except.error e
      | Except.ok r => Except.ok (Obs.pushed :: r)
  | Op.pop :: ops, st =>
      match traceNewFrom ops (pop_scope NSId.ident st) with
      | Except.error e => Except.error e
      | Except.ok r => Except.ok (Obs.popped :: r)
  | Op.lkp name :: ops, st =>
      let p := sym_lookup NSId.ident name st
      match traceNewFrom ops p.2 with
      | Except.error e => Except.error e
      | Except.ok r => Except.ok (Obs.found p.1 :: r)
  | Op.add name ty k l :: ops, st =>
      match sym_add NSId.ident name ty k l st with
      | Except.error e => Except.error e
      | Except.ok (i, st2) =>
          let s := st2.store.getD i zeroSym
          match traceNewFrom ops st2 with
          | Except.error e => Except.error e
          | Except.ok r => Except.ok (Obs.added i s.symtype s.linkage s.type :: r)

/-- Run a call sequence on the newer implementation from the initial
state. -/
def traceNew (ops : List Op) : Except Err (List Obs) := traceNewFrom ops emptySt

/-- Run a call sequence on the older implementation from a given state. -/
def traceOldFrom : List Op → V0.NS → Except Err (List Obs)
  | [], _ => Except.ok []
  | Op.push :: ops, ns =>
      match traceOldFrom ops (V0.push_scope ns) with
      | Except.error e => Except.error e
      | Except.ok r => Except.ok (Obs.pushed :: r)
  | Op.pop :: ops, ns =>
      match traceOldFrom ops (V0.pop_scope ns) with
      | Except.error e => Except.error e
      | Except.ok r => Except.ok (Obs.popped :: r)
  | Op.lkp name :: ops, ns =>
      match traceOldFrom ops ns with
      | Except.error e => Except.error e
      | Except.ok r => Except.ok (Obs.found (V0.sym_lookup ns name) :: r)
  | Op.add name ty k l :: ops, ns =>
      match V0.sym_add name ty k l ns with
      | Except.error e => Except.error e
      | Except.ok (i, ns2) =>
          let s := ns2.symbol.getD i zeroSym
          match traceOldFrom ops ns2 with
          | Except.error e => Except.error e
          | Except.ok r => Except.ok (Obs.added i s.symtype s.linkage s.type :: r)

/-- Run a call sequence on the older implementation from the initial
state. -/
def traceOld (ops : List Op) : Except Err (List Obs) := traceOldFrom ops V0.emptyNS

deriving instance DecidableEq for Except

section ApplyTypeLemmas

theorem apply_type_func_ok_iff : ∀ (s : Symb) (r1 : CType) (p1 : List CType) (ty : CType),
    s.type = CType.func r1 p1 →
    ((apply_type s ty).isOk = true ↔ ∃ p2, ty = CType.func r1 p2 ∧ p1.length = p2.length) := by
  intro s r1 p1 ty h
  cases ty with
  | base b =>
      simp [apply_type, h, type_equal, CType.beq_iff, is_function, Except.isOk, Except.toBool]
  | func r2 p2 =>
      simp only [apply_type, h, type_equal, CType.beq_iff, is_function, type_next, nmembers]
      by_cases he : CType.func r1 p1 = CType.func r2 p2
      · by_cases hd : s.symtype = Symtype.definition
        · simp [he, hd, Except.isOk, Except.toBool]
          exact ⟨p2, by simp_all⟩
        · cases he
          simp [hd, Except.isOk, Except.toBool]
      · rw [if_neg (by intro hc; exact he hc.1)]
        by_cases hr : r1 = r2
        · subst hr
          by_cases hp : p1.length = p2.length
          · simp [hp, Except.isOk, Except.toBool]
          · simp [hp, Except.isOk, Except.toBool]
        · simp [hr, Except.isOk, Except.toBool]
          intro x
          exact absurd x.symm hr
  | array e n =>
      simp [apply_type, h, type_equal, CType.beq_iff, is_function, Except.isOk, Except.toBool]

theorem apply_type_func_adopt : ∀ (s : Symb) (r1 : CType) (p1 p2 : List CType),
    s.type = CType.func r1 p1 → p1.length = p2.length →
    apply_type s (CType.func r1 p2) = Except.ok { s with type := CType.func r1 p2 } := by
  intro s r1 p1 p2 h hlen
  obtain ⟨nm, nn, tpe, kk, ll, dd, rr, so, vi, vs⟩ := s
  simp only [Symb.mk.injEq] at h ⊢
  subst h
  simp only [apply_type, type_equal, CType.beq_iff, is_function, type_next, nmembers]
  by_cases he : CType.func r1 p1 = CType.func r1 p2
  · by_cases hd : kk = Symtype.definition
    · simp [he, hd]
    · cases he
      simp [hd]
  · rw [if_neg (by intro hc; exact he hc.1)]
    simp [hlen]

theorem apply_type_array_ok_iff : ∀ (s : Symb) (e : CType) (n1 : Nat) (ty : CType),
    s.type = CType.array e n1 →
    ((apply_type s ty).isOk = true ↔ ∃ m, ty = CType.array e m) := by
  intro s e n1 ty h
  cases ty with
  | base b =>
      simp [apply_type, h, type_equal, CType.beq_iff, is_function, is_array,
        Except.isOk, Except.toBool]
  | func r2 p2 =>
      simp [apply_type, h, type_equal, CType.beq_iff, is_function, is_array,
        Except.isOk, Except.toBool]
  | array e2 m =>
      simp only [apply_type, h, type_equal, CType.beq_iff, is_function, is_array, type_next]
      by_cases he : CType.array e n1 = CType.array e2 m
      · cases he
        simp [Except.isOk, Except.toBool]
      · rw [if_neg (by intro hc; exact he hc.1)]
        by_cases hee : e = e2
        · subst hee
          simp [Except.isOk, Except.toBool]
        · simp [hee, Except.isOk, Except.toBool]
          intro x
          exact absurd x.symm hee

theorem apply_type_array_complete : ∀ (s : Symb) (e : CType) (m : Nat),
    s.type = CType.array e 0 →
    apply_type s (CType.array e m) = Except.ok { s with type := CType.array e m } := by
  intro s e m h
  obtain ⟨nm, nn, tpe, kk, ll, dd, rr, so, vi, vs⟩ := s
  simp only [Symb.mk.injEq] at h ⊢
  subst h
  simp only [apply_type, type_equal, CType.beq_iff, is_function, is_array, type_next,
    size_of, set_array_length, type_array_len]
  by_cases he : CType.array e 0 = CType.array e m
  · cases he
    simp
  · rw [if_neg (by intro hc; exact he hc.1)]
    simp

theorem v0_apply_type_func_ok_iff : ∀ (s : Symb) (r1 : CType) (p1 : List CType) (ty : CType),
    s.type = CType.func r1 p1 →
    ((V0.apply_type s ty).isOk = true ↔
      ∃ p2, ty = CType.func r1 p2 ∧ (p1.length = 0 ∨ p1.length = p2.length)) := by
  intro s r1 p1 ty h
  cases ty with
  | base b =>
      simp [V0.apply_type, h, type_equal, CType.beq_iff, is_function, Except.isOk, Except.toBool]
  | func r2 p2 =>
      simp only [V0.apply_type, h, type_equal, CType.beq_iff, is_function, type_next]
      by_cases he : CType.func r1 p1 = CType.func r2 p2
      · by_cases hd : s.symtype = Symtype.definition
        · simp [he, hd, Except.isOk, Except.toBool]
          refine ⟨p2, by simp_all, Or.inr ?_⟩
          injection he with h1 h2
          simp [h2]
        · cases he
          simp [hd, Except.isOk, Except.toBool]
      · rw [if_neg (by intro hc; exact he hc.1)]
        by_cases hr : r1 = r2
        · subst hr
          by_cases hp : p1.length = 0 ∨ p1.length = p2.length
          · have hp2 : p1 = [] ∨ p1.length = p2.length := by
              rcases hp with hp | hp
              · exact Or.inl (List.length_eq_zero.mp hp)
              · exact Or.inr hp
            simp [hp2, Except.isOk, Except.toBool]
          · have hp2 : ¬(p1 = [] ∨ p1.length = p2.length) := by
              intro hc
              apply hp
              rcases hc with hc | hc
              · exact Or.inl (by simp [hc])
              · exact Or.inr hc
            simp [hp2, Except.isOk, Except.toBool]
        · simp [hr, Except.isOk, Except.toBool]
          intro x
          exact absurd x.symm hr
  | array e2 m =>
      simp [V0.apply_type, h, type_equal, CType.beq_iff, is_function, Except.isOk, Except.toBool]

theorem v0_apply_type_func_adopt : ∀ (s : Symb) (r1 : CType) (p1 p2 : List CType),
    s.type = CType.func r1 p1 → (p1.length = 0 ∨ p1.length = p2.length) →
    V0.apply_type s (CType.func r1 p2) = Except.ok { s with type := CType.func r1 p2 } := by
  intro s r1 p1 p2 h hlen
  obtain ⟨nm, nn, tpe, kk, ll, dd, rr, so, vi, vs⟩ := s
  simp only [Symb.mk.injEq] at h ⊢
  subst h
  simp only [V0.apply_type, type_equal, CType.beq_iff, is_function, type_next]
  have hlen2 : p1 = [] ∨ p1.length = p2.length := by
    rcases hlen with hp | hp
    · exact Or.inl (List.length_eq_zero.mp hp)
    · exact Or.inr hp
  by_cases he : CType.func r1 p1 = CType.func r1 p2
  · by_cases hd : kk = Symtype.definition
    · simp [he, hd]
    · cases he
      simp [hd]
  · rw [if_neg (by intro hc; exact he hc.1)]
    simp [hlen2]

theorem v0_apply_type_array_complete : ∀ (s : Symb) (e : CType) (m : Nat),
    s.type = CType.array e 0 →
    V0.apply_type s (CType.array e m) = Except.ok { s with type := CType.array e m } := by
  intro s e m h
  obtain ⟨nm, nn, tpe, kk, ll, dd, rr, so, vi, vs⟩ := s
  simp only [Symb.mk.injEq] at h ⊢
  subst h
  simp only [V0.apply_type, type_equal, CType.beq_iff, is_function, type_next]
  by_cases he : CType.array e 0 = CType.array e m
  · cases he
    simp
  · rw [if_neg (by intro hc; exact he hc.1)]
    simp

theorem apply_type_error_is_incompatible : ∀ (s : Symb) (ty : CType),
    (∃ s2, apply_type s ty = Except.ok s2) ∨ apply_type s ty = Except.error Err.incompatible := by
  intro s ty
  unfold apply_type
  split
  · exact Or.inl ⟨s, rfl⟩
  · split
    · split_ifs <;> first | exact Or.inl ⟨_, rfl⟩ | exact Or.inr rfl
    · split_ifs <;> first | exact Or.inl ⟨_, rfl⟩ | exact Or.inr rfl
    · exact Or.inr rfl

theorem v0_apply_type_error_is_incompatible : ∀ (s : Symb) (ty : CType),
    (∃ s2, V0.apply_type s ty = Except.ok s2) ∨ V0.apply_type s ty = Except.error Err.incompatible := by
  intro s ty
  unfold V0.apply_type
  split
  · exact Or.inl ⟨s, rfl⟩
  · split
    · split_ifs <;> first | exact Or.inl ⟨_, rfl⟩ | exact Or.inr rfl
    · split_ifs <;> first | exact Or.inl ⟨_, rfl⟩ | exact Or.inr rfl
    · exact Or.inr rfl

theorem apply_type_scalar_mismatch : ∀ (s : Symb) (b : Nat) (ty : CType),
    s.type = CType.base b → ty ≠ CType.base b →
    apply_type s ty = Except.error Err.incompatible := by
  intro s b ty h hne
  simp only [apply_type, h, type_equal, CType.beq_iff]
  rw [if_neg (by intro hc; exact hne hc.1.symm)]

end ApplyTypeLemmas

/-- C2 (amended): the type-merge operation succeeds on function types only
when the incoming type is a function with an identical return type and a
matching member count — the newer implementation requires the counts to be
equal (so completing `int f();`, recorded with member count 0, by
`int f(int, int)` is a fatal incompatible-declaration error there), while
the older implementation also accepts an existing unset (zero) member
count; in both, the successful merge adopts the incoming concrete
parameter list, an array of unknown length with identical element type is
completed by an incoming array supplying a length, and every failure is
the fatal incompatible-declaration error. -/
theorem C2_apply_type_merge_rules :
    (∀ (s : Symb) (r1 : CType) (p1 : List CType) (ty : CType), s.type = CType.func r1 p1 →
      ((apply_type s ty).isOk = true ↔ ∃ p2, ty = CType.func r1 p2 ∧ p1.length = p2.length))
  ∧ (∀ (s : Symb) (r1 : CType) (p1 p2 : List CType), s.type = CType.func r1 p1 →
      p1.length = p2.length →
      apply_type s (CType.func r1 p2) = Except.ok { s with type := CType.func r1 p2 })
  ∧ (∀ (s : Symb) (e : CType) (n1 : Nat) (ty : CType), s.type = CType.array e n1 →
      ((apply_type s ty).isOk = true ↔ ∃ m, ty = CType.array e m))
  ∧ (∀ (s : Symb) (e : CType) (m : Nat), s.type = CType.array e 0 →
      apply_type s (CType.array e m) = Except.ok { s with type := CType.array e m })
  ∧ (∀ (s : Symb) (r1 : CType) (p1 : List CType) (ty : CType), s.type = CType.func r1 p1 →
      ((V0.apply_type s ty).isOk = true ↔
        ∃ p2, ty = CType.func r1 p2 ∧ (p1.length = 0 ∨ p1.length = p2.length)))
  ∧ (∀ (s : Symb) (r1 : CType) (p1 p2 : List CType), s.type = CType.func r1 p1 →
      (p1.length = 0 ∨ p1.length = p2.length) →
      V0.apply_type s (CType.func r1 p2) = Except.ok { s with type := CType.func r1 p2 })
  ∧ (∀ (s : Symb) (e : CType) (m : Nat), s.type = CType.array e 0 →
      V0.apply_type s (CType.array e m) = Except.ok { s with type := CType.array e m })
  ∧ (∀ (s : Symb) (ty : CType),
      (∃ s2, apply_type s ty = Except.ok s2) ∨ apply_type s ty = Except.error Err.incompatible)
  ∧ (∀ (s : Symb) (ty : CType),
      (∃ s2, V0.apply_type s ty = Except.ok s2) ∨ V0.apply_type s ty = Except.error Err.incompatible)
  ∧ (∀ (s : Symb) (b : Nat) (ty : CType), s.type = CType.base b → ty ≠ CType.base b →
      apply_type s ty = Except.error Err.incompatible) :=
  ⟨apply_type_func_ok_iff, apply_type_func_adopt, apply_type_array_ok_iff,
   apply_type_array_complete, v0_apply_type_func_ok_iff, v0_apply_type_func_adopt,
   v0_apply_type_array_complete, apply_type_error_is_incompatible,
   v0_apply_type_error_is_incompatible, apply_type_scalar_mismatch⟩

/-- C2 counterexample: completing an existing `int f();` (function type
with member count 0) by `int f(int, int)` — identical return types — is a
fatal incompatible-declaration error in the newer implementation's
`apply_type`, so success does not follow from an identical return type
alone as the claim states. -/
theorem C2_cex_unprototyped_completion_fatal :
    apply_type
      { zeroSym with name := "f", type := CType.func (CType.base 2) [],
                     symtype := Symtype.declaration, linkage := Linkage.ext }
      (CType.func (CType.base 2) [CType.base 2, CType.base 2])
      = Except.error Err.incompatible := by
  rfl

/-- C2 witness: a matching-count function completion, an array-length
completion, and the older implementation's unset-count completion all
succeed, by the claim theorem applied at concrete inputs. -/
theorem C2_witness :
    apply_type { zeroSym with type := CType.func (CType.base 2) [CType.base 2] }
        (CType.func (CType.base 2) [CType.base 3])
      = Except.ok { zeroSym with type := CType.func (CType.base 2) [CType.base 3] }
  ∧ apply_type { zeroSym with type := CType.array (CType.base 2) 0 }
        (CType.array (CType.base 2) 10)
      = Except.ok { zeroSym with type := CType.array (CType.base 2) 10 }
  ∧ V0.apply_type { zeroSym with type := CType.func (CType.base 2) [] }
        (CType.func (CType.base 2) [CType.base 2, CType.base 2])
      = Except.ok { zeroSym with type := CType.func (CType.base 2) [CType.base 2, CType.base 2] } :=
  ⟨C2_apply_type_merge_rules.2.1 _ _ _ _ rfl rfl,
   C2_apply_type_merge_rules.2.2.2.1 _ _ _ rfl,
   C2_apply_type_merge_rules.2.2.2.2.2.1 _ _ _ _ rfl (Or.inl rfl)⟩

section StateHelpers

theorem St.store_withNS (st : St) (nsid : NSId) (ns : NS) : (st.withNS nsid ns).store = st.store := by
  cases nsid <;> rfl

theorem St.nsOf_withNS_self (st : St) (nsid : NSId) (ns : NS) : (st.withNS nsid ns).nsOf nsid = ns := by
  cases nsid <;> rfl

theorem St.diag_withNS (st : St) (nsid : NSId) (ns : NS) : (st.withNS nsid ns).diag = st.diag := by
  cases nsid <;> rfl

theorem St.temporaries_withNS (st : St) (nsid : NSId) (ns : NS) :
    (st.withNS nsid ns).temporaries = st.temporaries := by
  cases nsid <;> rfl

theorem St.functions_withNS (st : St) (nsid : NSId) (ns : NS) :
    (st.withNS nsid ns).functions = st.functions := by
  cases nsid <;> rfl

theorem getD_set_self (l : List Symb) (i : Nat) (a d : Symb) (h : i < l.length) :
    (l.set i a).getD i d = a := by
  simp [List.getD, List.getElem?_set, h]

theorem alloc_sym_after_discard (st : St) (i : Nat) :
    alloc_sym (sym_discard i st) = (i, { st with store := st.store.set i zeroSym }) := by
  simp [alloc_sym, sym_discard, List.getLast?_concat, List.dropLast_concat]

end StateHelpers

/-- C10: popping a non-outermost scope only decrements the active-scope
count of the popped namespace; the arena, every symbol record, the master
list, the frames, the diagnostics, the pool and the function table are
unchanged (in the older implementation the top scope frame is dropped, but
the master list and every symbol record are likewise untouched). -/
theorem C10_pop_inner_scope_frame :
    (∀ (nsid : NSId) (st : St), 2 ≤ (st.nsOf nsid).len →
      pop_scope nsid st =
        st.withNS nsid { st.nsOf nsid with len := (st.nsOf nsid).len - 1 })
  ∧ (∀ (nsid : NSId) (st : St), 2 ≤ (st.nsOf nsid).len →
      (pop_scope nsid st).store = st.store
      ∧ ((pop_scope nsid st).nsOf nsid).symbol = (st.nsOf nsid).symbol
      ∧ ((pop_scope nsid st).nsOf nsid).frames = (st.nsOf nsid).frames
      ∧ ((pop_scope nsid st).nsOf nsid).len = (st.nsOf nsid).len - 1
      ∧ (pop_scope nsid st).diag = st.diag
      ∧ (pop_scope nsid st).temporaries = st.temporaries
      ∧ (pop_scope nsid st).functions = st.functions)
  ∧ (∀ ns : V0.NS, 2 ≤ ns.scopes.length →
      V0.pop_scope ns = { ns with scopes := ns.scopes.dropLast }
      ∧ (V0.pop_scope ns).symbol = ns.symbol) := by
  have main : ∀ (nsid : NSId) (st : St), 2 ≤ (st.nsOf nsid).len →
      pop_scope nsid st =
        st.withNS nsid { st.nsOf nsid with len := (st.nsOf nsid).len - 1 } := by
    intro nsid st h
    unfold pop_scope
    rw [if_neg (by omega), if_neg (by omega)]
  refine ⟨main, ?_, ?_⟩
  · intro nsid st h
    rw [main nsid st h]
    simp [St.store_withNS, St.nsOf_withNS_self, St.diag_withNS,
      St.temporaries_withNS, St.functions_withNS]
  · intro ns h
    have hne : ¬ns.scopes.isEmpty = true := by
      cases hs : ns.scopes with
      | nil => rw [hs] at h; simp at h
      | cons a l => simp [hs, List.isEmpty]
    constructor
    · unfold V0.pop_scope
      rw [if_neg hne]
    · unfold V0.pop_scope
      rw [if_neg hne]

/-- C10 witness: after entering two scopes in the identifier namespace,
popping one gives exactly the same state with the active-scope count
decremented. -/
theorem C10_witness :
    2 ≤ ((push_scope NSId.ident (push_scope NSId.ident emptySt)).nsOf NSId.ident).len
  ∧ pop_scope NSId.ident (push_scope NSId.ident (push_scope NSId.ident emptySt)) =
      (push_scope NSId.ident (push_scope NSId.ident emptySt)).withNS NSId.ident
        { (push_scope NSId.ident (push_scope NSId.ident emptySt)).nsOf NSId.ident with
          len := ((push_scope NSId.ident (push_scope NSId.ident emptySt)).nsOf NSId.ident).len - 1 } :=
  ⟨by decide, C10_pop_inner_scope_frame.1 NSId.ident _ (by decide)⟩

theorem mem_of_getLast?_eq_some {l : List Nat} {i : Nat} (h : l.getLast? = some i) : i ∈ l := by
  obtain ⟨hne, heq⟩ := List.mem_getLast?_eq_getLast (Option.mem_def.mpr h)
  rw [heq]
  exact List.getLast_mem hne

/-- `alloc_sym` returns a zeroed record: the allocated slot reads as
`zeroSym`, the arena grows only when the pool is empty, and nothing else
of the state changes. -/
theorem alloc_sym_spec (st : St) (hp : ∀ j ∈ st.temporaries, j < st.store.length) :
    (alloc_sym st).2.store.getD (alloc_sym st).1 zeroSym = zeroSym
    ∧ (alloc_sym st).1 < (alloc_sym st).2.store.length
    ∧ (alloc_sym st).2.identNS = st.identNS
    ∧ (alloc_sym st).2.labelNS = st.labelNS
    ∧ (alloc_sym st).2.tagNS = st.tagNS
    ∧ (alloc_sym st).2.functions = st.functions
    ∧ (alloc_sym st).2.diag = st.diag
    ∧ (alloc_sym st).2.store.length = st.store.length + (if st.temporaries = [] then 1 else 0)
    ∧ (alloc_sym st).2.n_static = st.n_static
    ∧ (alloc_sym st).2.n_tmp = st.n_tmp
    ∧ (alloc_sym st).2.n_unnamed = st.n_unnamed
    ∧ (alloc_sym st).2.n_label = st.n_label
    ∧ (alloc_sym st).2.n_constant = st.n_constant
    ∧ (alloc_sym st).2.n_string = st.n_string := by
  unfold alloc_sym
  cases hg : st.temporaries.getLast? with
  | some i =>
      have hi : i < st.store.length := hp i (mem_of_getLast?_eq_some hg)
      have hne : st.temporaries ≠ [] := by
        intro hc
        rw [hc] at hg
        simp at hg
      refine ⟨getD_set_self _ _ _ _ hi, by simpa using hi, rfl, rfl, rfl, rfl, rfl, ?_,
        rfl, rfl, rfl, rfl, rfl, rfl⟩
      simp [hne]
  | none =>
      have he : st.temporaries = [] := by
        cases hc : st.temporaries with
        | nil => rfl
        | cons a l =>
            rw [hc] at hg
            simp [List.getLast?_eq_getLast] at hg
      refine ⟨?_, by simp, rfl, rfl, rfl, rfl, rfl, by simp [he],
        rfl, rfl, rfl, rfl, rfl, rfl⟩
      rw [List.getD_eq_getElem?_getD]
      simp

/-- C8 (amended): a symbol created by `sym_create_unnamed` has internal
linkage when created at file scope (depth 0) and no linkage otherwise, and
is never registered in any scope's lookup table; but it is NOT appended to
the identifier namespace's master symbol list (unlike constants and string
literals, `sym_create_unnamed` leaves every namespace — master list and
scope frames — unchanged). -/
theorem C8_sym_create_unnamed :
    ∀ (ty : CType) (st : St), 0 < st.identNS.len →
      (∀ j ∈ st.temporaries, j < st.store.length) →
      ((sym_create_unnamed ty st).2.store.getD (sym_create_unnamed ty st).1 zeroSym
        = { zeroSym with
            linkage := if current_scope_depth NSId.ident st = 0 then Linkage.intern
                       else Linkage.nolink,
            symtype := Symtype.definition, name := ".u", type := ty,
            n := st.n_unnamed + 1 })
      ∧ (sym_create_unnamed ty st).2.identNS = st.identNS
      ∧ (sym_create_unnamed ty st).2.labelNS = st.labelNS
      ∧ (sym_create_unnamed ty st).2.tagNS = st.tagNS := by
  intro ty st h hp
  obtain ⟨hz, hlt, hid, hlb, htg, hfn, hdg, hlen, hns, hnt, hnu, hnl, hnc, hnstr⟩ :=
    alloc_sym_spec st hp
  have hdep : current_scope_depth NSId.ident (alloc_sym st).2
      = current_scope_depth NSId.ident st := by
    simp [current_scope_depth, St.nsOf, hid]
  refine ⟨?_, ?_, ?_, ?_⟩
  · simp only [sym_create_unnamed]
    rw [getD_set_self _ _ _ _ hlt, hdep, hnu]
  · simp only [sym_create_unnamed]
    exact hid
  · simp only [sym_create_unnamed]
    exact hlb
  · simp only [sym_create_unnamed]
    exact htg

/-- C8 counterexample: at file scope, `sym_create_unnamed` does not append
the new symbol to the identifier namespace's master symbol list (it stays
empty), while `sym_create_constant` — for which the spec states the same
appending — does. -/
theorem C8_cex_unnamed_not_in_master_list :
    ((sym_create_unnamed (CType.base 2) (push_scope NSId.ident emptySt)).2).identNS.symbol = []
  ∧ ((sym_create_unnamed (CType.base 2) (push_scope NSId.ident emptySt)).2).store.length = 1
  ∧ ((sym_create_constant (CType.base 2) 0 (push_scope NSId.ident emptySt)).2).identNS.symbol = [0] := by
  refine ⟨rfl, rfl, rfl⟩

/-- C8 witness: at file scope the unnamed object gets internal linkage, at
a nested depth no linkage; in both cases the namespaces are untouched. -/
theorem C8_witness :
    (((sym_create_unnamed (CType.base 2) (push_scope NSId.ident emptySt)).2.store.getD
        (sym_create_unnamed (CType.base 2) (push_scope NSId.ident emptySt)).1 zeroSym).linkage
      = Linkage.intern)
  ∧ (((sym_create_unnamed (CType.base 2)
        (push_scope NSId.ident (push_scope NSId.ident emptySt))).2.store.getD
        (sym_create_unnamed (CType.base 2)
          (push_scope NSId.ident (push_scope NSId.ident emptySt))).1 zeroSym).linkage
      = Linkage.nolink)
  ∧ (sym_create_unnamed (CType.base 2) (push_scope NSId.ident emptySt)).2.identNS
      = (push_scope NSId.ident emptySt).identNS :=
  ⟨by
    rw [(C8_sym_create_unnamed (CType.base 2) (push_scope NSId.ident emptySt)
      (by decide) (by decide)).1]
    decide,
   by
    rw [(C8_sym_create_unnamed (CType.base 2)
      (push_scope NSId.ident (push_scope NSId.ident emptySt))
      (by decide) (by decide)).1]
    decide,
   (C8_sym_create_unnamed (CType.base 2) (push_scope NSId.ident emptySt)
      (by decide) (by decide)).2.1⟩

section RecycleLemmas

theorem sym_create_temporary_after_discard (st : St) (i : Nat) (ty : CType) :
    sym_create_temporary ty (sym_discard i st)
      = (i, { st with
              store := st.store.set i { zeroSym with
                symtype := Symtype.definition, linkage := Linkage.nolink,
                name := ".t", type := ty, n := st.n_tmp + 1 },
              n_tmp := st.n_tmp + 1 }) := by
  simp only [sym_create_temporary, alloc_sym_after_discard]
  rw [List.set_set]

theorem sym_create_unnamed_after_discard (st : St) (i : Nat) (ty : CType) :
    sym_create_unnamed ty (sym_discard i st)
      = (i, { st with
              store := st.store.set i { zeroSym with
                linkage := if current_scope_depth NSId.ident st = 0 then Linkage.intern
                           else Linkage.nolink,
                symtype := Symtype.definition, name := ".u", type := ty,
                n := st.n_unnamed + 1 },
              n_unnamed := st.n_unnamed + 1 }) := by
  simp only [sym_create_unnamed, alloc_sym_after_discard]
  rw [List.set_set]
  rfl

theorem sym_create_label_after_discard (st : St) (i : Nat) :
    sym_create_label (sym_discard i st)
      = (i, { st with
              store := st.store.set i { zeroSym with
                type := void_t, symtype := Symtype.label, linkage := Linkage.intern,
                name := ".L", n := st.n_label + 1 },
              n_label := st.n_label + 1 }) := by
  simp only [sym_create_label, alloc_sym_after_discard]
  rw [List.set_set]

theorem sym_create_constant_after_discard (st : St) (i : Nat) (ty : CType) (v : Int) :
    sym_create_constant ty v (sym_discard i st)
      = (i, { st with
              store := st.store.set i { zeroSym with
                type := ty, value_i := v, symtype := Symtype.constant,
                linkage := Linkage.intern, name := ".C", n := st.n_constant + 1 },
              n_constant := st.n_constant + 1,
              identNS := { st.identNS with symbol := st.identNS.symbol ++ [i] } }) := by
  simp only [sym_create_constant, alloc_sym_after_discard]
  rw [List.set_set]

theorem sym_create_string_after_discard (st : St) (i : Nat) (w : String) :
    sym_create_string w (sym_discard i st)
      = (i, { st with
              store := st.store.set i { zeroSym with
                type := CType.array char_t (w.length + 1), value_s := w,
                symtype := Symtype.stringval, linkage := Linkage.intern,
                name := ".LC", n := st.n_string + 1 },
              n_string := st.n_string + 1,
              identNS := { st.identNS with symbol := st.identNS.symbol ++ [i] } }) := by
  simp only [sym_create_string, alloc_sym_after_discard]
  rw [List.set_set]

end RecycleLemmas

/-- C9: releasing a symbol with `sym_discard` and then requesting any
generated symbol (temporary, unnamed, label, constant or string) reuses
the released arena slot: the creator returns exactly the released index,
the arena length (the allocation counter) stays flat, and the slot is
re-filled from the all-zero record with only the creator's own fields set
— every other field of the returned record reads as freshly zeroed. -/
theorem C9_recycle_round_trip :
    ∀ (st : St) (i : Nat) (ty : CType) (v : Int) (w : String), i < st.store.length →
      ((sym_create_temporary ty (sym_discard i st)).1 = i
        ∧ (sym_create_temporary ty (sym_discard i st)).2.store.length = st.store.length
        ∧ (sym_create_temporary ty (sym_discard i st)).2.store.getD i zeroSym
            = { zeroSym with
                symtype := Symtype.definition, linkage := Linkage.nolink,
                name := ".t", type := ty, n := st.n_tmp + 1 }
        ∧ (sym_create_temporary ty (sym_discard i st)).2.temporaries = st.temporaries)
    ∧ ((sym_create_unnamed ty (sym_discard i st)).1 = i
        ∧ (sym_create_unnamed ty (sym_discard i st)).2.store.length = st.store.length
        ∧ (sym_create_unnamed ty (sym_discard i st)).2.store.getD i zeroSym
            = { zeroSym with
                linkage := if current_scope_depth NSId.ident st = 0 then Linkage.intern
                           else Linkage.nolink,
                symtype := Symtype.definition, name := ".u", type := ty,
                n := st.n_unnamed + 1 })
    ∧ ((sym_create_label (sym_discard i st)).1 = i
        ∧ (sym_create_label (sym_discard i st)).2.store.length = st.store.length
        ∧ (sym_create_label (sym_discard i st)).2.store.getD i zeroSym
            = { zeroSym with
                type := void_t, symtype := Symtype.label,
                linkage := Linkage.intern, name := ".L", n := st.n_label + 1 })
    ∧ ((sym_create_constant ty v (sym_discard i st)).1 = i
        ∧ (sym_create_constant ty v (sym_discard i st)).2.store.length = st.store.length
        ∧ (sym_create_constant ty v (sym_discard i st)).2.store.getD i zeroSym
            = { zeroSym with
                type := ty, value_i := v, symtype := Symtype.constant,
                linkage := Linkage.intern, name := ".C", n := st.n_constant + 1 })
    ∧ ((sym_create_string w (sym_discard i st)).1 = i
        ∧ (sym_create_string w (sym_discard i st)).2.store.length = st.store.length
        ∧ (sym_create_string w (sym_discard i st)).2.store.getD i zeroSym
            = { zeroSym with
                type := CType.array char_t (w.length + 1), value_s := w,
                symtype := Symtype.stringval, linkage := Linkage.intern,
                name := ".LC", n := st.n_string + 1 }) := by
  intro st i ty v w hi
  refine ⟨⟨?_, ?_, ?_, ?_⟩, ⟨?_, ?_, ?_⟩, ⟨?_, ?_, ?_⟩, ⟨?_, ?_, ?_⟩, ⟨?_, ?_, ?_⟩⟩
  · rw [sym_create_temporary_after_discard]
  · rw [sym_create_temporary_after_discard]
    simp
  · rw [sym_create_temporary_after_discard]
    exact getD_set_self _ _ _ _ hi
  · rw [sym_create_temporary_after_discard]
  · rw [sym_create_unnamed_after_discard]
  · rw [sym_create_unnamed_after_discard]
    simp
  · rw [sym_create_unnamed_after_discard]
    exact getD_set_self _ _ _ _ hi
  · rw [sym_create_label_after_discard]
  · rw [sym_create_label_after_discard]
    simp
  · rw [sym_create_label_after_discard]
    exact getD_set_self _ _ _ _ hi
  · rw [sym_create_constant_after_discard]
  · rw [sym_create_constant_after_discard]
    simp
  · rw [sym_create_constant_after_discard]
    exact getD_set_self _ _ _ _ hi
  · rw [sym_create_string_after_discard]
  · rw [sym_create_string_after_discard]
    simp
  · rw [sym_create_string_after_discard]
    exact getD_set_self _ _ _ _ hi

/-- C9 witness: create a temporary (arena grows to one slot), discard it,
create a new temporary: the same slot 0 is reused, the arena stays at one
allocation, and the record reads as the zero record with only the
temporary-creator fields set. -/
theorem C9_witness :
    (0 < ((sym_create_temporary (CType.base 2) emptySt).2).store.length)
  ∧ (sym_create_temporary (CType.base 3)
      (sym_discard 0 (sym_create_temporary (CType.base 2) emptySt).2)).1 = 0
  ∧ (sym_create_temporary (CType.base 3)
      (sym_discard 0 (sym_create_temporary (CType.base 2) emptySt).2)).2.store.length
      = ((sym_create_temporary (CType.base 2) emptySt).2).store.length
  ∧ (sym_create_temporary (CType.base 3)
      (sym_discard 0 (sym_create_temporary (CType.base 2) emptySt).2)).2.store.getD 0 zeroSym
      = { zeroSym with
          symtype := Symtype.definition, linkage := Linkage.nolink,
          name := ".t", type := CType.base 3,
          n := ((sym_create_temporary (CType.base 2) emptySt).2).n_tmp + 1 } :=
  ⟨by decide,
   (C9_recycle_round_trip _ 0 (CType.base 3) 0 "" (by decide)).1.1,
   (C9_recycle_round_trip _ 0 (CType.base 3) 0 "" (by decide)).1.2.1,
   (C9_recycle_round_trip _ 0 (CType.base 3) 0 "" (by decide)).1.2.2.1⟩

/-- The `int` basic type (`basic_type__int`). -/
def int_t : CType := .base 2

section LookupHelpers

theorem St.nsOf_withStore (st : St) (s : List Symb) (x : NSId) :
    (st.withStore s).nsOf x = st.nsOf x := by
  cases x <;> rfl

theorem sym_lookup_found_state (nsid : NSId) (name : String) (st : St) (i : Nat)
    (hf : (sym_lookup nsid name st).1 = some i) :
    (sym_lookup nsid name st).2
      = st.withStore (st.store.set i { st.store.getD i zeroSym with referenced := true }) := by
  simp only [sym_lookup] at hf ⊢
  cases hs : scopes_find st.store (st.nsOf nsid).frames name (st.nsOf nsid).len with
  | some j =>
      simp only [hs] at hf ⊢
      simp at hf
      subst hf
      rfl
  | none =>
      simp only [hs] at hf
      simp at hf

theorem sym_lookup_none_state (nsid : NSId) (name : String) (st : St)
    (hf : (sym_lookup nsid name st).1 = none) :
    (sym_lookup nsid name st).2 = st := by
  simp only [sym_lookup] at hf ⊢
  cases hs : scopes_find st.store (st.nsOf nsid).frames name (st.nsOf nsid).len with
  | some j =>
      simp only [hs] at hf
      simp at hf
  | none =>
      simp only [hs]

theorem sym_lookup_pair (nsid : NSId) (name : String) (st : St) (i : Nat)
    (hf : (sym_lookup nsid name st).1 = some i) :
    sym_lookup nsid name st = (some i, (sym_lookup nsid name st).2) := by
  cases hp : sym_lookup nsid name st with
  | mk a b =>
      rw [hp] at hf
      simp at hf
      rw [hf]

end LookupHelpers

theorem sym_add_found_dup (nsid : NSId) (name : String) (ty : CType) (k : Symtype)
    (l : Linkage) (st : St) (i : Nat)
    (hd : (st.store.getD i zeroSym).depth = current_scope_depth nsid st)
    (hnz : current_scope_depth nsid st ≠ 0)
    (hne : ¬(l = Linkage.ext ∧ k = Symtype.declaration ∧
      ((st.store.getD i zeroSym).symtype = Symtype.tentative ∨
       (st.store.getD i zeroSym).symtype = Symtype.definition))) :
    sym_add_found nsid name ty k l st i = Except.error Err.duplicate := by
  simp only [sym_add_found]
  rw [if_neg hne]
  rw [if_neg (by intro hc; exact hnz (hd ▸ hc.2))]
  rw [if_pos (by exact ⟨hd, by omega⟩)]

/-- C4: when a visible symbol is found whose recorded depth equals the
current (non-zero) depth and the extern-declaration completion rule does
not apply, `sym_add` is the fatal duplicate-definition error, in both
implementations (at non-zero depth none of the file-scope completions is
even attempted). -/
theorem C4_duplicate_at_nonzero_depth :
    (∀ (nsid : NSId) (name : String) (ty : CType) (k : Symtype) (l : Linkage)
       (st : St) (i : Nat),
      k ≠ Symtype.stringval →
      (sym_lookup nsid name st).1 = some i →
      i < st.store.length →
      (st.store.getD i zeroSym).depth = current_scope_depth nsid st →
      current_scope_depth nsid st ≠ 0 →
      ¬(l = Linkage.ext ∧ k = Symtype.declaration ∧
        ((st.store.getD i zeroSym).symtype = Symtype.tentative ∨
         (st.store.getD i zeroSym).symtype = Symtype.definition)) →
      sym_add nsid name ty k l st = Except.error Err.duplicate)
  ∧ (∀ (name : String) (ty : CType) (k : Symtype) (l : Linkage) (ns : V0.NS) (i : Nat),
      V0.sym_lookup ns name = some i →
      (ns.symbol.getD i zeroSym).depth = V0.depth ns →
      V0.depth ns ≠ 0 →
      ¬(l = Linkage.ext ∧ k = Symtype.declaration ∧
        ((ns.symbol.getD i zeroSym).symtype = Symtype.tentative ∨
         (ns.symbol.getD i zeroSym).symtype = Symtype.definition)) →
      V0.sym_add name ty k l ns = Except.error Err.duplicate) := by
  constructor
  · intro nsid name ty k l st i hk hf hib hd hnz hne
    have h2 : sym_add nsid name ty k l st
        = sym_add_found nsid name ty k l
            (st.withStore (st.store.set i { st.store.getD i zeroSym with referenced := true })) i := by
      simp only [sym_add]
      rw [if_neg hk, sym_lookup_pair nsid name st i hf]
      simp only []
      rw [sym_lookup_found_state nsid name st i hf]
    rw [h2]
    have hget : (st.withStore
          (st.store.set i { st.store.getD i zeroSym with referenced := true })).store.getD i zeroSym
        = { st.store.getD i zeroSym with referenced := true } := by
      simp only [St.withStore]
      exact getD_set_self _ _ _ _ hib
    apply sym_add_found_dup
    · rw [hget]
      simpa [current_scope_depth, St.nsOf_withStore] using hd
    · simpa [current_scope_depth, St.nsOf_withStore] using hnz
    · rw [hget]
      simpa using hne
  · intro name ty k l ns i hf hd hnz hne
    simp only [V0.sym_add]
    rw [hf]
    simp only []
    rw [if_neg hne]
    rw [if_neg (by intro hc; exact hnz hc.2)]
    rw [if_pos (by exact ⟨hd, hnz⟩)]

/-- The state reached by `push_scope; push_scope; sym_add "x" int` in the
identifier namespace of the newer implementation: one `int x;` defined at
depth 1. -/
def C4st : St :=
  ((sym_add NSId.ident "x" int_t Symtype.definition Linkage.nolink
      (push_scope NSId.ident (push_scope NSId.ident emptySt))).toOption.getD (0, emptySt)).2

/-- The analogous older-implementation namespace with `int x;` at depth 1. -/
def C4ns : V0.NS :=
  ((V0.sym_add "x" int_t Symtype.definition Linkage.nolink
      (V0.push_scope (V0.push_scope V0.emptyNS))).toOption.getD (0, V0.emptyNS)).2

/-- C4 witness: declaring `int x;` twice at depth 1 hits the fatal
duplicate-definition error in both implementations, by the claim theorem
applied at the concrete states. -/
theorem C4_witness :
    ((sym_lookup NSId.ident "x" C4st).1 = some 0
      ∧ current_scope_depth NSId.ident C4st = 1
      ∧ sym_add NSId.ident "x" int_t Symtype.definition Linkage.nolink C4st
          = Except.error Err.duplicate)
  ∧ (V0.sym_lookup C4ns "x" = some 0
      ∧ V0.depth C4ns = 1
      ∧ V0.sym_add "x" int_t Symtype.definition Linkage.nolink C4ns
          = Except.error Err.duplicate) :=
  ⟨⟨by decide, by decide,
    C4_duplicate_at_nonzero_depth.1 NSId.ident "x" int_t Symtype.definition Linkage.nolink
      C4st 0 (by decide) (by decide) (by decide) (by decide) (by decide) (by decide)⟩,
   ⟨by decide, by decide,
    C4_duplicate_at_nonzero_depth.2 "x" int_t Symtype.definition Linkage.nolink
      C4ns 0 (by decide) (by decide) (by decide) (by decide)⟩⟩

/-- Call sequence at file scope: define `static int f` (internal-linkage
definition), then re-declare it with identical type (internal-linkage
declaration). -/
def C7seq1 : List Op :=
  [Op.push,
   Op.add "f" int_t Symtype.definition Linkage.intern,
   Op.add "f" int_t Symtype.declaration Linkage.intern]

/-- Call sequence: declare function `f` inside a nested scope, pop the
scope, then declare it again at file scope. -/
def C7seq2 : List Op :=
  [Op.push, Op.push,
   Op.add "f" (CType.func int_t [int_t]) Symtype.declaration Linkage.ext,
   Op.pop,
   Op.add "f" (CType.func int_t [int_t]) Symtype.declaration Linkage.ext]

/-- C7 (amended): the two implementations are NOT observationally
equivalent.  On `C7seq1` (an internal-linkage definition followed by an
identically-typed internal-linkage declaration at file scope) the newer
implementation succeeds, returning the existing symbol unchanged, while
the older one aborts with the declaration-mismatch error (it has no
definition-then-declaration branch).  On `C7seq2` the newer implementation
resolves the file-scope redeclaration through its cross-scope function
table to the very symbol created in the popped inner scope (arena index
0), while the older implementation (which has no function table) creates a
second, distinct symbol (index 1). -/
theorem C7_implementations_diverge :
    (traceNew C7seq1
      = Except.ok [Obs.pushed,
          Obs.added 0 Symtype.definition Linkage.intern int_t,
          Obs.added 0 Symtype.definition Linkage.intern int_t]
      ∧ traceOld C7seq1 = Except.error Err.mismatch)
  ∧ (traceNew C7seq2
      = Except.ok [Obs.pushed, Obs.pushed,
          Obs.added 0 Symtype.declaration Linkage.ext (CType.func int_t [int_t]),
          Obs.popped,
          Obs.added 0 Symtype.declaration Linkage.ext (CType.func int_t [int_t])]
      ∧ traceOld C7seq2
      = Except.ok [Obs.pushed, Obs.pushed,
          Obs.added 0 Symtype.declaration Linkage.ext (CType.func int_t [int_t]),
          Obs.popped,
          Obs.added 1 Symtype.declaration Linkage.ext (CType.func int_t [int_t])]) := by
  refine ⟨⟨?_, ?_⟩, ⟨?_, ?_⟩⟩ <;> rfl

/-- C7 counterexample: two concrete call sequences on which the two
implementations observably disagree — one where only the newer
implementation survives, one where they return distinct symbols. -/
theorem C7_cex_not_equivalent :
    traceNew C7seq1 ≠ traceOld C7seq1 ∧ traceNew C7seq2 ≠ traceOld C7seq2 := by
  refine ⟨?_, ?_⟩ <;> decide

section DiagHelpers

theorem diag_alloc (st : St) : (alloc_sym st).2.diag = st.diag := by
  unfold alloc_sym
  cases st.temporaries.getLast? <;> rfl

theorem diag_mkvis (nsid : NSId) (i : Nat) (st : St) :
    (sym_make_visible nsid i st).diag = st.diag := by
  simp only [sym_make_visible]
  rw [St.diag_withNS]

theorem sym_add_create_diag (nsid : NSId) (name : String) (ty : CType) (k : Symtype)
    (l : Linkage) (st : St) :
    ∀ r, sym_add_create nsid name ty k l st = Except.ok r → r.2.diag = st.diag := by
  intro r h
  simp only [sym_add_create] at h
  injection h with h2
  subst h2
  simp only []
  split <;> (try split) <;> (try split) <;>
    simp [diag_mkvis, St.diag_withNS, St.withStore, diag_alloc]

end DiagHelpers

theorem diag_lookup (nsid : NSId) (name : String) (st : St) :
    (sym_lookup nsid name st).2.diag = st.diag := by
  simp only [sym_lookup]
  cases scopes_find st.store (st.nsOf nsid).frames name (st.nsOf nsid).len <;> rfl

theorem sym_add_found_diag (nsid : NSId) (name : String) (ty : CType) (k : Symtype)
    (l : Linkage) (st : St) (i : Nat) :
    ∀ r, sym_add_found nsid name ty k l st i = Except.ok r → r.2.diag = st.diag := by
  intro r h
  simp only [sym_add_found] at h
  split at h
  · split at h
    · simp at h
    · injection h with h2
      subst h2
      rfl
  · split at h
    · split at h
      · split at h
        · simp at h
        · injection h with h2
          subst h2
          rfl
      · split at h
        · split at h
          · simp at h
          · injection h with h2
            subst h2
            rfl
        · split at h
          · split at h
            · injection h with h2
              subst h2
              rfl
            · simp at h
          · split at h
            · simp at h
            · split at h
              · simp at h
              · injection h with h2
                subst h2
                rfl
    · split at h
      · simp at h
      · exact sym_add_create_diag nsid name ty k l st r h

theorem sym_add_coerce_diag (nsid : NSId) (ty : CType) (st : St) (i : Nat) :
    ∀ r, sym_add_coerce nsid ty st i = Except.ok r → r.2.diag = st.diag := by
  intro r h
  simp only [sym_add_coerce] at h
  split at h
  · simp at h
  · injection h with h2
    subst h2
    simp only []
    split <;> simp [diag_mkvis, St.withStore, St.diag_withNS]

/-- C3 (amended): the declaration-conflict errors of `sym_add` (duplicate,
mismatch, conflicting types, incompatible declaration) are fatal — a
successful `sym_add` records no diagnostic, and the error outcome carries
no state at all; but the undefined-label check of `pop_scope` is only
reported: the pop records one undefined-label diagnostic per still-
tentative label and then CONTINUES the teardown, returning normally to the
caller with the namespace freed. -/
theorem C3_error_policy :
    (∀ (nsid : NSId) (name : String) (ty : CType) (k : Symtype) (l : Linkage)
       (st : St) (r : Nat × St),
      sym_add nsid name ty k l st = Except.ok r → r.2.diag = st.diag)
  ∧ (∀ st : St, (st.nsOf NSId.label).len = 1 →
      pop_scope NSId.label st
        = { st with
            labelNS := ⟨[], 0, []⟩,
            diag := st.diag ++ st.labelNS.symbol.filterMap
              (fun i => if (st.store.getD i zeroSym).symtype = Symtype.tentative
                        then some Err.undefinedLabel else none) }) := by
  constructor
  · intro nsid name ty k l st r h
    simp only [sym_add] at h
    split at h
    · exact sym_add_create_diag nsid name ty k l st r h
    · split at h
      · rename_i i st1 heq
        have hd1 : st1.diag = st.diag := by
          have := diag_lookup nsid name st
          rw [heq] at this
          exact this
        rw [← hd1]
        exact sym_add_found_diag nsid name ty k l st1 i r h
      · rename_i st1 heq
        have hd1 : st1.diag = st.diag := by
          have := diag_lookup nsid name st
          rw [heq] at this
          exact this
        rw [← hd1]
        split at h
        · split at h
          · exact sym_add_coerce_diag nsid ty st1 _ r h
          · exact sym_add_create_diag nsid name ty k l st1 r h
        · exact sym_add_create_diag nsid name ty k l st1 r h
  · intro st hlen
    simp only [pop_scope]
    rw [if_neg (by rw [hlen]; simp), if_pos hlen]
    rfl

/-- The label namespace after `push_scope` and a tentative label
`missing` registered by `goto missing;` (symbol kind tentative, never
completed to a definition). -/
def C3st : St :=
  ((sym_add NSId.label "missing" void_t Symtype.tentative Linkage.intern
      (push_scope NSId.label emptySt)).toOption.getD (0, emptySt)).2

/-- C3 counterexample: popping the outermost label scope with the
still-tentative label `missing` RETURNS — `pop_scope` records the
undefined-label diagnostic and then keeps mutating state (the teardown
frees the namespace: master list emptied, scope stack reset) and hands a
state back to the caller, instead of terminating the process at the error
with no further state mutation. -/
theorem C3_cex_undefined_label_continues :
    (pop_scope NSId.label C3st).diag = [Err.undefinedLabel]
  ∧ (pop_scope NSId.label C3st).labelNS.symbol = []
  ∧ (pop_scope NSId.label C3st).labelNS.len = 0
  ∧ C3st.labelNS.symbol = [0] := by
  refine ⟨rfl, rfl, rfl, rfl⟩

/-- C3 witness: a successful `sym_add` records no diagnostic, and the
label-namespace teardown equation of the claim theorem instantiated at the
concrete state with one tentative label. -/
theorem C3_witness :
    (((sym_add NSId.ident "x" int_t Symtype.definition Linkage.nolink
        (push_scope NSId.ident emptySt)).toOption.getD (0, emptySt)).2.diag
      = (push_scope NSId.ident emptySt).diag)
  ∧ pop_scope NSId.label C3st
      = { C3st with
          labelNS := ⟨[], 0, []⟩,
          diag := C3st.diag ++ C3st.labelNS.symbol.filterMap
            (fun i => if (C3st.store.getD i zeroSym).symtype = Symtype.tentative
                      then some Err.undefinedLabel else none) } :=
  ⟨C3_error_policy.1 NSId.ident "x" int_t Symtype.definition Linkage.nolink
      (push_scope NSId.ident emptySt) _ (by decide),
   C3_error_policy.2 C3st (by decide)⟩

section MakeVisibleHelpers

theorem getD_set_self_frame (l : List Frame) (i : Nat) (a d : Frame) (h : i < l.length) :
    (l.set i a).getD i d = a := by
  simp [List.getD, List.getElem?_set, h]

theorem store_mkvis (nsid : NSId) (i : Nat) (st : St) :
    (sym_make_visible nsid i st).store = st.store := by
  simp only [sym_make_visible]
  rw [St.store_withNS]

theorem functions_mkvis (nsid : NSId) (i : Nat) (st : St) :
    (sym_make_visible nsid i st).functions = st.functions := by
  simp only [sym_make_visible]
  rw [St.functions_withNS]

theorem symbol_mkvis (nsid : NSId) (i : Nat) (st : St) (x : NSId) :
    ((sym_make_visible nsid i st).nsOf x).symbol = (st.nsOf x).symbol := by
  cases nsid <;> cases x <;> simp [sym_make_visible, St.withNS, St.nsOf]

theorem len_mkvis (nsid : NSId) (i : Nat) (st : St) (x : NSId) :
    ((sym_make_visible nsid i st).nsOf x).len = (st.nsOf x).len := by
  cases nsid <;> cases x <;> simp [sym_make_visible, St.withNS, St.nsOf]

theorem mkvis_registers (nsid : NSId) (i : Nat) (st : St)
    (hfr : (st.nsOf nsid).len - 1 < (st.nsOf nsid).frames.length) :
    ∃ tbl, ((sym_make_visible nsid i st).nsOf nsid).frames.getD
        ((st.nsOf nsid).len - 1) ⟨ScopeState.created, []⟩
      = ⟨ScopeState.populated, tbl⟩ ∧ i ∈ tbl := by
  simp only [sym_make_visible]
  rw [St.nsOf_withNS_self]
  refine ⟨_, getD_set_self_frame _ _ _ _ hfr, ?_⟩
  cases ((st.nsOf nsid).frames.getD ((st.nsOf nsid).len - 1) ⟨ScopeState.created, []⟩).state with
  | created => simp
  | dirty => simp
  | populated => simp

theorem sym_lookup_none_pair (nsid : NSId) (name : String) (st : St)
    (hf : (sym_lookup nsid name st).1 = none) :
    sym_lookup nsid name st = (none, st) := by
  have h2 := sym_lookup_none_state nsid name st hf
  cases hp : sym_lookup nsid name st with
  | mk a b =>
      rw [hp] at hf h2
      simp at hf h2
      rw [hf, h2]

end MakeVisibleHelpers

theorem sym_add_coerce_ok (nsid : NSId) (ty : CType) (st : St) (i : Nat) (s2 : Symb)
    (happ : apply_type (st.store.getD i zeroSym) ty = Except.ok s2) :
    sym_add_coerce nsid ty st i
      = Except.ok (i,
          if current_scope_depth nsid st < s2.depth
          then (sym_make_visible nsid i (st.withStore (st.store.set i s2))).withStore
                 ((sym_make_visible nsid i (st.withStore (st.store.set i s2))).store.set i
                   { s2 with depth := current_scope_depth nsid st })
          else sym_make_visible nsid i (st.withStore (st.store.set i s2))) := by
  simp only [sym_add_coerce, happ]
  have hd : current_scope_depth nsid
      (sym_make_visible nsid i (st.withStore (st.store.set i s2)))
      = current_scope_depth nsid st := by
    simp [current_scope_depth, len_mkvis, St.nsOf_withStore]
  rw [hd]

theorem sym_add_coerce_err (nsid : NSId) (ty : CType) (st : St) (i : Nat) (e : Err)
    (happ : apply_type (st.store.getD i zeroSym) ty = Except.error e) :
    sym_add_coerce nsid ty st i = Except.error e := by
  simp only [sym_add_coerce, happ]

theorem sym_add_reduces_to_coerce (name : String) (ty : CType) (k : Symtype) (l : Linkage)
    (st : St) (i : Nat)
    (hk : k ≠ Symtype.stringval)
    (hf : (sym_lookup NSId.ident name st).1 = none)
    (hfn : is_function ty = true)
    (htab : sym_lookup_function name st = some i) :
    sym_add NSId.ident name ty k l st = sym_add_coerce NSId.ident ty st i := by
  simp only [sym_add]
  rw [if_neg hk, sym_lookup_none_pair NSId.ident name st hf]
  simp only [hfn, if_true, htab]

/-- C1: when the incoming identifier-namespace declaration has a function
type, no symbol of that name is visible in the scope chain, and the
cross-scope function table holds a symbol of that name, `sym_add` returns
exactly that pre-existing symbol: the arena does not grow, the master list
is untouched, the type-merge rule is applied to the symbol (a merge
conflict propagates as the same fatal error), the symbol is registered in
the current scope's lookup table, and its recorded depth is lowered to the
current depth exactly when the current depth is shallower. -/
theorem C1_function_table_coercion :
    ∀ (name : String) (ty : CType) (k : Symtype) (l : Linkage) (st : St) (i : Nat),
      k ≠ Symtype.stringval →
      (sym_lookup NSId.ident name st).1 = none →
      is_function ty = true →
      sym_lookup_function name st = some i →
      i < st.store.length →
      st.identNS.len - 1 < st.identNS.frames.length →
      (∀ s2, apply_type (st.store.getD i zeroSym) ty = Except.ok s2 →
        ∃ st2, sym_add NSId.ident name ty k l st = Except.ok (i, st2)
          ∧ st2.store.length = st.store.length
          ∧ st2.store.getD i zeroSym
              = (if current_scope_depth NSId.ident st < s2.depth
                 then { s2 with depth := current_scope_depth NSId.ident st } else s2)
          ∧ st2.identNS.symbol = st.identNS.symbol
          ∧ st2.functions = st.functions
          ∧ st2.identNS.len = st.identNS.len
          ∧ (∃ tbl, st2.identNS.frames.getD (st.identNS.len - 1) ⟨ScopeState.created, []⟩
                = ⟨ScopeState.populated, tbl⟩ ∧ i ∈ tbl))
      ∧ (∀ e, apply_type (st.store.getD i zeroSym) ty = Except.error e →
          sym_add NSId.ident name ty k l st = Except.error e) := by
  intro name ty k l st i hk hf hfn htab hib hfr
  constructor
  · intro s2 happ
    rw [sym_add_reduces_to_coerce name ty k l st i hk hf hfn htab,
      sym_add_coerce_ok NSId.ident ty st i s2 happ]
    set stv := sym_make_visible NSId.ident i (st.withStore (st.store.set i s2)) with hstv
    have hvstore : stv.store = st.store.set i s2 := by
      rw [hstv, store_mkvis]
      rfl
    have hvsym : stv.identNS.symbol = st.identNS.symbol := by
      have := symbol_mkvis NSId.ident i (st.withStore (st.store.set i s2)) NSId.ident
      simp only [St.nsOf] at this
      rw [hstv]
      rw [this]
      rfl
    have hvlen : stv.identNS.len = st.identNS.len := by
      have := len_mkvis NSId.ident i (st.withStore (st.store.set i s2)) NSId.ident
      simp only [St.nsOf] at this
      rw [hstv, this]
      rfl
    have hvfun : stv.functions = st.functions := by
      rw [hstv, functions_mkvis]
      rfl
    have hvreg : ∃ tbl, stv.identNS.frames.getD (st.identNS.len - 1) ⟨ScopeState.created, []⟩
        = ⟨ScopeState.populated, tbl⟩ ∧ i ∈ tbl := by
      have := mkvis_registers NSId.ident i (st.withStore (st.store.set i s2))
        (by simpa [St.nsOf_withStore] using hfr)
      simpa [St.nsOf_withStore, St.nsOf] using this
    by_cases hdep : current_scope_depth NSId.ident st < s2.depth
    · refine ⟨_, by rw [if_pos hdep], ?_, ?_, ?_, ?_, ?_, ?_⟩
      · simp [St.withStore, hvstore]
      · rw [if_pos hdep]
        simp only [St.withStore]
        rw [hvstore, List.set_set]
        exact getD_set_self _ _ _ _ hib
      · simpa [St.withStore] using hvsym
      · simpa [St.withStore] using hvfun
      · simpa [St.withStore] using hvlen
      · simpa [St.withStore] using hvreg
    · refine ⟨_, by rw [if_neg hdep], ?_, ?_, ?_, ?_, ?_, ?_⟩
      · simp [hvstore]
      · rw [if_neg hdep, hvstore]
        exact getD_set_self _ _ _ _ hib
      · exact hvsym
      · exact hvfun
      · exact hvlen
      · exact hvreg
  · intro e happ
    rw [sym_add_reduces_to_coerce name ty k l st i hk hf hfn htab,
      sym_add_coerce_err NSId.ident ty st i e happ]

/-- The identifier namespace after `push; push; sym_add bar (function,
extern declaration); pop` — the function `bar` was forward-declared at
depth 1 inside a now-popped scope, is no longer visible, but sits in the
cross-scope function table. -/
def C1st : St :=
  pop_scope NSId.ident
    (((sym_add NSId.ident "bar" (CType.func int_t [int_t]) Symtype.declaration Linkage.ext
        (push_scope NSId.ident (push_scope NSId.ident emptySt))).toOption.getD (0, emptySt)).2)

/-- The merged symbol record for the C1 witness redeclaration. -/
def C1s2 : Symb := { C1st.store.getD 0 zeroSym with type := CType.func int_t [int_t] }

/-- C1 witness: redeclaring `bar` at file scope after its inner-scope
forward declaration was popped resolves — through the function table — to
the same arena slot 0, registers it in the file scope, and lowers its
recorded depth from 1 to 0, by the claim theorem applied at the concrete
state. -/
theorem C1_witness :
    (sym_lookup NSId.ident "bar" C1st).1 = none
  ∧ sym_lookup_function "bar" C1st = some 0
  ∧ (C1st.store.getD 0 zeroSym).depth = 1
  ∧ current_scope_depth NSId.ident C1st = 0
  ∧ (∃ st2, sym_add NSId.ident "bar" (CType.func int_t [int_t]) Symtype.declaration
        Linkage.ext C1st = Except.ok (0, st2)
      ∧ st2.store.length = C1st.store.length
      ∧ st2.store.getD 0 zeroSym
          = (if current_scope_depth NSId.ident C1st < C1s2.depth
             then { C1s2 with depth := current_scope_depth NSId.ident C1st } else C1s2)
      ∧ st2.identNS.symbol = C1st.identNS.symbol
      ∧ st2.functions = C1st.functions
      ∧ st2.identNS.len = C1st.identNS.len
      ∧ (∃ tbl, st2.identNS.frames.getD (C1st.identNS.len - 1) ⟨ScopeState.created, []⟩
            = ⟨ScopeState.populated, tbl⟩ ∧ 0 ∈ tbl)) :=
  ⟨by decide, by decide, by decide, by decide,
   (C1_function_table_coercion "bar" (CType.func int_t [int_t]) Symtype.declaration
      Linkage.ext C1st 0 (by decide) (by decide) (by decide) (by decide)
      (by decide) (by decide)).1 C1s2 (by decide)⟩

section ScanLemmas

/-- Generic innermost-first scan over depths `d-1, …, 0`: probe row `j`
and fall back to shallower rows. -/
def scanGen (f : Nat → Option Nat) : Nat → Option Nat
  | 0 => none
  | d + 1 =>
    match f d with
    | some i => some i
    | none => scanGen f d

theorem scanGen_none_iff (f : Nat → Option Nat) : ∀ d,
    scanGen f d = none ↔ ∀ j, j < d → f j = none := by
  intro d
  induction d with
  | zero => simp [scanGen]
  | succ d ih =>
      simp only [scanGen]
      cases hs : f d with
      | some i =>
          simp only []
          constructor
          · intro hc
            simp at hc
          · intro hall
            rw [hall d (by omega)] at hs
            simp at hs
      | none =>
          simp only [ih]
          constructor
          · intro hall j hj
            by_cases hjd : j = d
            · rw [hjd]
              exact hs
            · exact hall j (by omega)
          · intro hall j hj
            exact hall j (by omega)

theorem scanGen_some (f : Nat → Option Nat) : ∀ d i,
    scanGen f d = some i →
    ∃ j, j < d ∧ f j = some i ∧ ∀ j2, j < j2 → j2 < d → f j2 = none := by
  intro d
  induction d with
  | zero => simp [scanGen]
  | succ d ih =>
      intro i h
      simp only [scanGen] at h
      cases hs : f d with
      | some x =>
          rw [hs] at h
          simp at h
          subst h
          exact ⟨d, by omega, hs, by intro j2 h1 h2; omega⟩
      | none =>
          rw [hs] at h
          obtain ⟨j, hj, hfj, hnone⟩ := ih i h
          refine ⟨j, by omega, hfj, ?_⟩
          intro j2 h1 h2
          by_cases hjd : j2 = d
          · rw [hjd]
            exact hs
          · exact hnone j2 h1 (by omega)

/-- The row probe of the newer implementation's scan. -/
def rowNew (store : List Symb) (frames : List Frame) (name : String) (j : Nat) : Option Nat :=
  if (frames.getD j ⟨ScopeState.created, []⟩).state = ScopeState.populated then
    (frames.getD j ⟨ScopeState.created, []⟩).table.find?
      (fun i => (store.getD i zeroSym).name == name)
  else none

theorem scopes_find_eq_scanGen (store : List Symb) (frames : List Frame) (name : String) :
    ∀ d, scopes_find store frames name d = scanGen (rowNew store frames name) d := by
  intro d
  induction d with
  | zero => rfl
  | succ d ih =>
      simp only [scopes_find, scanGen, rowNew]
      rw [ih]

/-- The row probe of the older implementation's scan. -/
def rowOld (syms : List Symb) (scopes : List (List Nat)) (name : String) (j : Nat) : Option Nat :=
  (scopes.getD j []).find? (fun i => (syms.getD i zeroSym).name == name)

theorem v0_scan_eq_scanGen (syms : List Symb) (scopes : List (List Nat)) (name : String) :
    ∀ d, V0.scan syms scopes name d = scanGen (rowOld syms scopes name) d := by
  intro d
  induction d with
  | zero => rfl
  | succ d ih =>
      simp only [V0.scan, scanGen, rowOld]
      rw [ih]

/-- A populated frame of the newer implementation holds the name. -/
def frame_has (store : List Symb) (f : Frame) (name : String) : Prop :=
  f.state = ScopeState.populated ∧ ∃ x ∈ f.table, (store.getD x zeroSym).name = name

/-- A scope of the older implementation holds the name. -/
def scope_has (syms : List Symb) (idxs : List Nat) (name : String) : Prop :=
  ∃ x ∈ idxs, (syms.getD x zeroSym).name = name

theorem rowNew_eq_none_iff (store : List Symb) (frames : List Frame) (name : String) (j : Nat) :
    rowNew store frames name j = none
      ↔ ¬ frame_has store (frames.getD j ⟨ScopeState.created, []⟩) name := by
  unfold rowNew frame_has
  split
  · rename_i hstate
    rw [List.find?_eq_none]
    simp [hstate]
    rw [List.getD_eq_getElem?_getD] at hstate
    exact Or.inl hstate
  · rename_i hstate
    simp [hstate]
    rw [List.getD_eq_getElem?_getD] at hstate
    intro hc
    exact absurd hc hstate

theorem rowOld_eq_none_iff (syms : List Symb) (scopes : List (List Nat)) (name : String) (j : Nat) :
    rowOld syms scopes name j = none ↔ ¬ scope_has syms (scopes.getD j []) name := by
  unfold rowOld scope_has
  rw [List.find?_eq_none]
  simp

end ScanLemmas

theorem sym_lookup_fst (nsid : NSId) (name : String) (st : St) :
    (sym_lookup nsid name st).1
      = scopes_find st.store (st.nsOf nsid).frames name (st.nsOf nsid).len := by
  simp only [sym_lookup]
  cases h : scopes_find st.store (st.nsOf nsid).frames name (st.nsOf nsid).len <;> simp [h]

/-- C5 (amended): `sym_lookup` scans scopes from innermost (highest depth)
to outermost (depth 0), probing only populated scopes; the first (deepest)
scope holding the name wins, and the lookup reports not-found exactly when
no active populated scope holds the name.  The newer implementation marks
the found symbol `referenced = true` as its only side effect and changes
nothing when the name is absent; the older implementation's `sym_lookup`
performs the same innermost-first scan but is pure — it performs no
`referenced` marking at all. -/
theorem C5_sym_lookup_behavior :
    (∀ (nsid : NSId) (name : String) (st : St),
      (sym_lookup nsid name st).1 = none
        ↔ ∀ j, j < (st.nsOf nsid).len →
            ¬ frame_has st.store ((st.nsOf nsid).frames.getD j ⟨ScopeState.created, []⟩) name)
  ∧ (∀ (nsid : NSId) (name : String) (st : St) (i : Nat),
      (sym_lookup nsid name st).1 = some i →
        (st.store.getD i zeroSym).name = name
        ∧ ∃ j, j < (st.nsOf nsid).len
            ∧ ((st.nsOf nsid).frames.getD j ⟨ScopeState.created, []⟩).state = ScopeState.populated
            ∧ i ∈ ((st.nsOf nsid).frames.getD j ⟨ScopeState.created, []⟩).table
            ∧ ∀ j2, j < j2 → j2 < (st.nsOf nsid).len →
                ¬ frame_has st.store
                    ((st.nsOf nsid).frames.getD j2 ⟨ScopeState.created, []⟩) name)
  ∧ (∀ (nsid : NSId) (name : String) (st : St) (i : Nat),
      (sym_lookup nsid name st).1 = some i →
        (sym_lookup nsid name st).2
          = st.withStore (st.store.set i { st.store.getD i zeroSym with referenced := true }))
  ∧ (∀ (nsid : NSId) (name : String) (st : St),
      (sym_lookup nsid name st).1 = none → (sym_lookup nsid name st).2 = st)
  ∧ (∀ (ns : V0.NS) (name : String),
      V0.sym_lookup ns name = none
        ↔ ∀ j, j < ns.scopes.length → ¬ scope_has ns.symbol (ns.scopes.getD j []) name)
  ∧ (∀ (ns : V0.NS) (name : String) (i : Nat),
      V0.sym_lookup ns name = some i →
        (ns.symbol.getD i zeroSym).name = name
        ∧ ∃ j, j < ns.scopes.length
            ∧ i ∈ ns.scopes.getD j []
            ∧ ∀ j2, j < j2 → j2 < ns.scopes.length →
                ¬ scope_has ns.symbol (ns.scopes.getD j2 []) name) := by
  refine ⟨?_, ?_, sym_lookup_found_state, sym_lookup_none_state, ?_, ?_⟩
  · intro nsid name st
    rw [sym_lookup_fst, scopes_find_eq_scanGen, scanGen_none_iff]
    constructor
    · intro hall j hj
      exact (rowNew_eq_none_iff st.store (st.nsOf nsid).frames name j).mp (hall j hj)
    · intro hall j hj
      exact (rowNew_eq_none_iff st.store (st.nsOf nsid).frames name j).mpr (hall j hj)
  · intro nsid name st i h
    rw [sym_lookup_fst, scopes_find_eq_scanGen] at h
    obtain ⟨j, hj, hrow, hdeeper⟩ := scanGen_some _ _ i h
    unfold rowNew at hrow
    split at hrow
    · rename_i hstate
      have hmem := List.mem_of_find?_eq_some hrow
      have hp := List.find?_some hrow
      simp at hp
      rw [List.getD_eq_getElem?_getD]
      refine ⟨hp, j, hj, hstate, hmem, ?_⟩
      intro j2 h1 h2
      exact (rowNew_eq_none_iff st.store (st.nsOf nsid).frames name j2).mp (hdeeper j2 h1 h2)
    · simp at hrow
  · intro ns name
    unfold V0.sym_lookup
    rw [v0_scan_eq_scanGen, scanGen_none_iff]
    constructor
    · intro hall j hj
      exact (rowOld_eq_none_iff ns.symbol ns.scopes name j).mp (hall j hj)
    · intro hall j hj
      exact (rowOld_eq_none_iff ns.symbol ns.scopes name j).mpr (hall j hj)
  · intro ns name i h
    unfold V0.sym_lookup at h
    rw [v0_scan_eq_scanGen] at h
    obtain ⟨j, hj, hrow, hdeeper⟩ := scanGen_some _ _ i h
    unfold rowOld at hrow
    have hmem := List.mem_of_find?_eq_some hrow
    have hp := List.find?_some hrow
    simp at hp
    rw [List.getD_eq_getElem?_getD]
    refine ⟨hp, j, hj, hmem, ?_⟩
    intro j2 h1 h2
    exact (rowOld_eq_none_iff ns.symbol ns.scopes name j2).mp (hdeeper j2 h1 h2)

/-- Run a sequence of public calls on the newer implementation, keeping the
state (an error keeps the previous state; the sequences used below never
error). -/
def runNew (ops : List SOp) (st : St) : St :=
  ops.foldl (fun s op => (stepOp op s).toOption.getD s) st

/-- The older implementation's namespace with one `x` at depth 0. -/
def C5ns : V0.NS :=
  ((V0.sym_add "x" int_t Symtype.definition Linkage.nolink
      (V0.push_scope V0.emptyNS)).toOption.getD (0, V0.emptyNS)).2

/-- C5 counterexample: the older implementation's `sym_lookup` finds the
symbol but performs no marking — its result record still reads
`referenced = false` after a successful lookup (`V0.sym_lookup` mutates no
state at all), contradicting the claim's "marked referenced = true as a
side effect". -/
theorem C5_cex_old_lookup_no_marking :
    V0.sym_lookup C5ns "x" = some 0
  ∧ (C5ns.symbol.getD 0 zeroSym).referenced = false := by
  refine ⟨rfl, rfl⟩

/-- The shadowing scenario: `x` declared at depth 0, a scope pushed, `x`
declared again at depth 1. -/
def C5st : St :=
  runNew [SOp.push NSId.ident,
          SOp.add NSId.ident "x" int_t Symtype.definition Linkage.nolink,
          SOp.push NSId.ident,
          SOp.add NSId.ident "x" int_t Symtype.definition Linkage.nolink] emptySt

/-- C5 witness: in the shadowing scenario, the lookup of `x` finds the
inner symbol (arena index 1) in the innermost populated scope (depth 1),
with no deeper scope holding the name, and marks it referenced — by the
claim theorem applied at the concrete state; after popping the inner
scope, the lookup returns the outer `x` (index 0) again. -/
theorem C5_witness :
    ((sym_lookup NSId.ident "x" C5st).1 = some 1)
  ∧ ((st2 : St) → st2 = (sym_lookup NSId.ident "x" C5st).2 →
      (st2.store.getD 1 zeroSym).referenced = true)
  ∧ ((sym_lookup NSId.ident "x" C5st).2
      = C5st.withStore (C5st.store.set 1 { C5st.store.getD 1 zeroSym with referenced := true }))
  ∧ (C5st.store.getD 1 zeroSym).name = "x"
  ∧ (∃ j, j < (C5st.nsOf NSId.ident).len
      ∧ ((C5st.nsOf NSId.ident).frames.getD j ⟨ScopeState.created, []⟩).state
          = ScopeState.populated
      ∧ 1 ∈ ((C5st.nsOf NSId.ident).frames.getD j ⟨ScopeState.created, []⟩).table
      ∧ ∀ j2, j < j2 → j2 < (C5st.nsOf NSId.ident).len →
          ¬ frame_has C5st.store
              ((C5st.nsOf NSId.ident).frames.getD j2 ⟨ScopeState.created, []⟩) "x")
  ∧ ((sym_lookup NSId.ident "x" (pop_scope NSId.ident C5st)).1 = some 0) :=
  ⟨by decide,
   fun st2 h => by rw [h, C5_sym_lookup_behavior.2.2.1 NSId.ident "x" C5st 1 (by decide)]; decide,
   C5_sym_lookup_behavior.2.2.1 NSId.ident "x" C5st 1 (by decide),
   (C5_sym_lookup_behavior.2.1 NSId.ident "x" C5st 1 (by decide)).1,
   (C5_sym_lookup_behavior.2.1 NSId.ident "x" C5st 1 (by decide)).2,
   by decide⟩

section SymNameLemmas

theorem digitChar_inj_below_ten :
    ∀ a, a < 10 → ∀ b, b < 10 → Nat.digitChar a = Nat.digitChar b → a = b := by
  decide

theorem map_digitChar_inj : ∀ l1 l2 : List Nat,
    (∀ x ∈ l1, x < 10) → (∀ x ∈ l2, x < 10) →
    l1.map Nat.digitChar = l2.map Nat.digitChar → l1 = l2 := by
  intro l1
  induction l1 with
  | nil =>
      intro l2 _ _ h
      cases l2 with
      | nil => rfl
      | cons y ys => simp at h
  | cons x xs ih =>
      intro l2 h1 h2 h
      cases l2 with
      | nil => simp at h
      | cons y ys =>
          simp only [List.map_cons, List.cons.injEq] at h
          have hx := h1 x (by simp)
          have hy := h2 y (by simp)
          have hxy := digitChar_inj_below_ten x hx y hy h.1
          have hrest := ih ys (fun z hz => h1 z (by simp [hz]))
            (fun z hz => h2 z (by simp [hz])) h.2
          rw [hxy, hrest]

theorem decChars_inj {m n : Nat} (h : decChars m = decChars n) : m = n := by
  unfold decChars at h
  have h2 := List.reverse_injective h
  have hd : Nat.digits 10 m = Nat.digits 10 n :=
    map_digitChar_inj _ _
      (fun x hx => Nat.digits_lt_base (by norm_num) hx)
      (fun x hx => Nat.digits_lt_base (by norm_num) hx) h2
  have h3 := congrArg (Nat.ofDigits 10) hd
  simpa [Nat.ofDigits_digits] using h3

theorem decStr_inj {m n : Nat} (h : decStr m = decStr n) : m = n := by
  unfold decStr at h
  have h2 : decChars m = decChars n := congrArg String.data h
  exact decChars_inj h2

theorem string_append_right_inj (s a b : String) (h : s ++ a = s ++ b) : a = b := by
  have h2 := congrArg String.data h
  rw [String.data_append, String.data_append] at h2
  exact String.ext (List.append_cancel_left h2)

/-- `sym_name` depends only on the name and the disambiguation counter. -/
theorem sym_name_stable (s1 s2 : Symb) (hn : s1.name = s2.name) (hc : s1.n = s2.n) :
    sym_name s1 = sym_name s2 := by
  simp [sym_name, hn, hc]

/-- Two symbols with the same source name and distinct nonzero counters
have distinct emitted names. -/
theorem sym_name_inj_of_ne (s1 s2 : Symb) (hn : s1.name = s2.name)
    (h1 : s1.n ≠ 0) (h2 : s2.n ≠ 0) (hne : s1.n ≠ s2.n) :
    sym_name s1 ≠ sym_name s2 := by
  intro heq
  simp only [sym_name, hn, if_neg h1, if_neg h2] at heq
  by_cases hdot : s2.name.startsWith "."
  · rw [if_pos hdot, if_pos hdot] at heq
    exact hne (decStr_inj (string_append_right_inj _ _ _ heq))
  · rw [if_neg hdot, if_neg hdot] at heq
    rw [String.append_assoc, String.append_assoc] at heq
    have := string_append_right_inj _ _ _ heq
    exact hne (decStr_inj (string_append_right_inj _ _ _ this))

end SymNameLemmas

section SlotPreservation

theorem getD_set_other {α : Type} (l : List α) (i j : Nat) (a d : α) (h : ¬ i = j) :
    (l.set i a).getD j d = l.getD j d := by
  simp [List.getD, List.getElem?_set_ne h]

theorem getD_set_self_gen {α : Type} (l : List α) (i : Nat) (a d : α) (h : i < l.length) :
    (l.set i a).getD i d = a := by
  simp [List.getD, List.getElem?_set, h]

theorem getD_set_field_preserve (l : List Symb) (i j : Nat) (a : Symb)
    (hn : a.n = (l.getD i zeroSym).n) (hm : a.name = (l.getD i zeroSym).name) :
    ((l.set i a).getD j zeroSym).n = (l.getD j zeroSym).n
    ∧ ((l.set i a).getD j zeroSym).name = (l.getD j zeroSym).name := by
  by_cases hij : i = j
  · subst hij
    by_cases hi : i < l.length
    · rw [getD_set_self_gen _ _ _ _ hi]
      exact ⟨hn, hm⟩
    · rw [List.set_eq_of_length_le (Nat.le_of_not_lt hi)]
      exact ⟨rfl, rfl⟩
  · rw [getD_set_other _ _ _ _ _ hij]
    exact ⟨rfl, rfl⟩

theorem apply_type_fields (s : Symb) (ty : CType) (s2 : Symb)
    (h : apply_type s ty = Except.ok s2) :
    s2.n = s.n ∧ s2.name = s.name := by
  unfold apply_type at h
  split at h
  · injection h with h1
    subst h1
    exact ⟨rfl, rfl⟩
  · split at h
    · split at h
      · split at h
        · injection h with h1
          subst h1
          exact ⟨rfl, rfl⟩
        · simp at h
      · simp at h
    · split at h
      · injection h with h1
        subst h1
        refine ⟨?_, ?_⟩ <;> split <;> rfl
      · simp at h
    · simp at h

theorem store_push (nsid : NSId) (st : St) : (push_scope nsid st).store = st.store := by
  simp only [push_scope]
  split <;> rw [St.store_withNS]

theorem store_pop (nsid : NSId) (st : St) : (pop_scope nsid st).store = st.store := by
  simp only [pop_scope]
  split
  · rfl
  · split
    · split <;> simp [St.store_withNS]
    · rw [St.store_withNS]

theorem temporaries_push (nsid : NSId) (st : St) :
    (push_scope nsid st).temporaries = st.temporaries := by
  simp only [push_scope]
  split <;> rw [St.temporaries_withNS]

theorem n_static_push (nsid : NSId) (st : St) :
    (push_scope nsid st).n_static = st.n_static := by
  have h : ∀ ns, (st.withNS nsid ns).n_static = st.n_static := by
    intro ns
    cases nsid <;> rfl
  simp only [push_scope]
  split <;> rw [h]

theorem n_static_withNS (st : St) (nsid : NSId) (ns : NS) :
    (st.withNS nsid ns).n_static = st.n_static := by
  cases nsid <;> rfl

theorem n_static_pop (nsid : NSId) (st : St) :
    (pop_scope nsid st).n_static = st.n_static := by
  simp only [pop_scope]
  split
  · rfl
  · split
    · split <;> simp [n_static_withNS]
    · rw [n_static_withNS]

theorem n_static_lookup (nsid : NSId) (name : String) (st : St) :
    (sym_lookup nsid name st).2.n_static = st.n_static := by
  simp only [sym_lookup]
  cases scopes_find st.store (st.nsOf nsid).frames name (st.nsOf nsid).len <;> rfl

theorem n_static_alloc (st : St) : (alloc_sym st).2.n_static = st.n_static := by
  unfold alloc_sym
  cases st.temporaries.getLast? <;> rfl

theorem n_static_mkvis (nsid : NSId) (i : Nat) (st : St) :
    (sym_make_visible nsid i st).n_static = st.n_static := by
  simp only [sym_make_visible]
  rw [n_static_withNS]

end SlotPreservation

theorem nsOf_alloc (st : St) (x : NSId) : (alloc_sym st).2.nsOf x = st.nsOf x := by
  unfold alloc_sym
  cases st.temporaries.getLast? <;> cases x <;> rfl

theorem depth_alloc (nsid : NSId) (st : St) :
    current_scope_depth nsid (alloc_sym st).2 = current_scope_depth nsid st := by
  simp [current_scope_depth, nsOf_alloc]

theorem sym_add_create_fresh (nsid : NSId) (name : String) (ty : CType) (k : Symtype)
    (st : St) (hd : current_scope_depth nsid st ≠ 0) :
    ∀ r, sym_add_create nsid name ty k Linkage.intern st = Except.ok r →
      r.1 = (alloc_sym st).1
      ∧ r.2.store = (alloc_sym st).2.store.set (alloc_sym st).1
          { zeroSym with
            depth := current_scope_depth nsid st, name := name, type := ty,
            symtype := k, linkage := Linkage.intern, n := st.n_static + 1 }
      ∧ r.2.n_static = st.n_static + 1 := by
  intro r h
  have hpos : decide (Linkage.intern = Linkage.intern ∧ current_scope_depth nsid st ≠ 0) = true := by
    simp [hd]
  simp only [sym_add_create, depth_alloc, n_static_alloc, hpos, eq_self_iff_true, if_true] at h
  injection h with h2
  subst h2
  refine ⟨rfl, ?_, ?_⟩
  · simp only []
    split <;> (try split) <;> (try split) <;>
      first
        | exact absurd
            (by simp [hd] : decide (True ∧ current_scope_depth nsid st ≠ 0) = true)
            (by assumption)
        | simp [store_mkvis, St.store_withNS, St.withStore]
  · simp only []
    split <;> (try split) <;> (try split) <;>
      first
        | exact absurd
            (by simp [hd] : decide (True ∧ current_scope_depth nsid st ≠ 0) = true)
            (by assumption)
        | simp [n_static_mkvis, n_static_withNS, St.withStore, n_static_alloc]

theorem alloc_set_getD_other (st : St) (s : Symb) (j : Nat) (hj : j < st.store.length)
    (hpool : j ∉ st.temporaries) :
    ((alloc_sym st).2.store.set (alloc_sym st).1 s).getD j zeroSym
      = st.store.getD j zeroSym := by
  unfold alloc_sym
  cases hg : st.temporaries.getLast? with
  | some i =>
      have hi : i ∈ st.temporaries := mem_of_getLast?_eq_some hg
      have hij : ¬ i = j := fun hc => hpool (hc ▸ hi)
      simp only []
      rw [List.set_set, getD_set_other _ _ _ _ _ hij]
  | none =>
      simp only []
      have hij : ¬ st.store.length = j := by omega
      rw [getD_set_other _ _ _ _ _ hij, List.getD_append _ _ _ _ hj]

theorem sym_add_create_nstatic (nsid : NSId) (name : String) (ty : CType) (k : Symtype)
    (l : Linkage) (st : St) :
    ∀ r, sym_add_create nsid name ty k l st = Except.ok r → st.n_static ≤ r.2.n_static := by
  intro r h
  simp only [sym_add_create] at h
  injection h with h2
  subst h2
  simp only []
  split <;> (try split) <;> (try split) <;> (try split) <;>
    (simp [n_static_mkvis, n_static_withNS, St.withStore, n_static_alloc] <;> omega)

theorem sym_add_create_slots (nsid : NSId) (name : String) (ty : CType) (k : Symtype)
    (l : Linkage) (st : St) :
    ∀ r j, sym_add_create nsid name ty k l st = Except.ok r →
      j < st.store.length → j ∉ st.temporaries →
      (r.2.store.getD j zeroSym).n = (st.store.getD j zeroSym).n
      ∧ (r.2.store.getD j zeroSym).name = (st.store.getD j zeroSym).name := by
  intro r j h hj hpool
  simp only [sym_add_create] at h
  injection h with h2
  subst h2
  simp only []
  refine ⟨?_, ?_⟩ <;>
    (split <;> (try split) <;> (try split) <;> (try split) <;>
      (simp only [store_mkvis, St.store_withNS, St.withStore]
       rw [alloc_set_getD_other st _ j hj hpool]))

theorem sym_add_found_nstatic (nsid : NSId) (name : String) (ty : CType) (k : Symtype)
    (l : Linkage) (st : St) (i : Nat) :
    ∀ r, sym_add_found nsid name ty k l st i = Except.ok r → st.n_static ≤ r.2.n_static := by
  intro r h
  simp only [sym_add_found] at h
  split at h
  · split at h
    · simp at h
    · injection h with h2
      subst h2
      simp [St.withStore]
  · split at h
    · split at h
      · split at h
        · simp at h
        · injection h with h2
          subst h2
          simp [St.withStore]
      · split at h
        · split at h
          · simp at h
          · injection h with h2
            subst h2
            simp [St.withStore]
        · split at h
          · split at h
            · injection h with h2
              subst h2
              simp
            · simp at h
          · split at h
            · simp at h
            · split at h
              · simp at h
              · injection h with h2
                subst h2
                simp [St.withStore]
    · split at h
      · simp at h
      · exact sym_add_create_nstatic nsid name ty k l st r h

theorem sym_add_found_slots (nsid : NSId) (name : String) (ty : CType) (k : Symtype)
    (l : Linkage) (st : St) (i : Nat) :
    ∀ r j, sym_add_found nsid name ty k l st i = Except.ok r →
      j < st.store.length → j ∉ st.temporaries →
      (r.2.store.getD j zeroSym).n = (st.store.getD j zeroSym).n
      ∧ (r.2.store.getD j zeroSym).name = (st.store.getD j zeroSym).name := by
  intro r j h hj hpool
  simp only [sym_add_found] at h
  split at h
  · split at h
    · simp at h
    · rename_i s2 heq
      injection h with h2
      subst h2
      simp only [St.withStore]
      exact getD_set_field_preserve st.store i j s2
        (apply_type_fields _ _ _ heq).1 (apply_type_fields _ _ _ heq).2
  · split at h
    · split at h
      · split at h
        · simp at h
        · rename_i s2 heq
          injection h with h2
          subst h2
          simp only [St.withStore]
          exact getD_set_field_preserve st.store i j _
            (by simp [(apply_type_fields _ _ _ heq).1])
            (by simp [(apply_type_fields _ _ _ heq).2])
      · split at h
        · split at h
          · simp at h
          · rename_i s2 heq
            injection h with h2
            subst h2
            simp only [St.withStore]
            exact getD_set_field_preserve st.store i j _
              (by simp [(apply_type_fields _ _ _ heq).1])
              (by simp [(apply_type_fields _ _ _ heq).2])
        · split at h
          · split at h
            · injection h with h2
              subst h2
              exact ⟨rfl, rfl⟩
            · simp at h
          · split at h
            · simp at h
            · split at h
              · simp at h
              · rename_i s2 heq
                injection h with h2
                subst h2
                simp only [St.withStore]
                exact getD_set_field_preserve st.store i j s2
                  (apply_type_fields _ _ _ heq).1 (apply_type_fields _ _ _ heq).2
    · split at h
      · simp at h
      · exact sym_add_create_slots nsid name ty k l st r j h hj hpool

theorem sym_add_coerce_nstatic (nsid : NSId) (ty : CType) (st : St) (i : Nat) :
    ∀ r, sym_add_coerce nsid ty st i = Except.ok r → st.n_static ≤ r.2.n_static := by
  intro r h
  simp only [sym_add_coerce] at h
  split at h
  · simp at h
  · injection h with h2
    subst h2
    simp only []
    split <;> simp [n_static_mkvis, St.withStore, n_static_withNS, sym_make_visible]

theorem sym_add_coerce_slots (nsid : NSId) (ty : CType) (st : St) (i : Nat) :
    ∀ r j, sym_add_coerce nsid ty st i = Except.ok r →
      j < st.store.length → j ∉ st.temporaries →
      (r.2.store.getD j zeroSym).n = (st.store.getD j zeroSym).n
      ∧ (r.2.store.getD j zeroSym).name = (st.store.getD j zeroSym).name := by
  intro r j h hj hpool
  simp only [sym_add_coerce] at h
  split at h
  · simp at h
  · rename_i s2 heq
    injection h with h2
    subst h2
    have hfld := apply_type_fields _ _ _ heq
    simp only []
    split
    · simp only [St.withStore, store_mkvis]
      rw [List.set_set]
      exact getD_set_field_preserve st.store i j _ (by simp [hfld.1]) (by simp [hfld.2])
    · simp only [store_mkvis, St.withStore]
      exact getD_set_field_preserve st.store i j s2 hfld.1 hfld.2

theorem sym_add_nstatic_mono (nsid : NSId) (name : String) (ty : CType) (k : Symtype)
    (l : Linkage) (st : St) :
    ∀ r, sym_add nsid name ty k l st = Except.ok r → st.n_static ≤ r.2.n_static := by
  intro r h
  simp only [sym_add] at h
  split at h
  · exact sym_add_create_nstatic nsid name ty k l st r h
  · split at h
    · rename_i i st1 heq
      have h1 : st1.n_static = st.n_static := by
        have := n_static_lookup nsid name st
        rw [heq] at this
        exact this
      rw [← h1]
      exact sym_add_found_nstatic nsid name ty k l st1 i r h
    · rename_i st1 heq
      have h1 : st1.n_static = st.n_static := by
        have := n_static_lookup nsid name st
        rw [heq] at this
        exact this
      rw [← h1]
      split at h
      · split at h
        · exact sym_add_coerce_nstatic nsid ty st1 _ r h
        · exact sym_add_create_nstatic nsid name ty k l st1 r h
      · exact sym_add_create_nstatic nsid name ty k l st1 r h

theorem lookup_slots (nsid : NSId) (name : String) (st : St) (j : Nat) :
    ((sym_lookup nsid name st).2.store.getD j zeroSym).n = (st.store.getD j zeroSym).n
    ∧ ((sym_lookup nsid name st).2.store.getD j zeroSym).name
        = (st.store.getD j zeroSym).name := by
  simp only [sym_lookup]
  cases hs : scopes_find st.store (st.nsOf nsid).frames name (st.nsOf nsid).len with
  | none => exact ⟨rfl, rfl⟩
  | some i =>
      simp only [St.withStore]
      exact getD_set_field_preserve st.store i j _ rfl rfl

theorem lookup_store_length (nsid : NSId) (name : String) (st : St) :
    (sym_lookup nsid name st).2.store.length = st.store.length := by
  simp only [sym_lookup]
  cases scopes_find st.store (st.nsOf nsid).frames name (st.nsOf nsid).len <;>
    simp [St.withStore]

theorem lookup_temporaries (nsid : NSId) (name : String) (st : St) :
    (sym_lookup nsid name st).2.temporaries = st.temporaries := by
  simp only [sym_lookup]
  cases scopes_find st.store (st.nsOf nsid).frames name (st.nsOf nsid).len <;> rfl

theorem sym_add_slots (nsid : NSId) (name : String) (ty : CType) (k : Symtype)
    (l : Linkage) (st : St) :
    ∀ r j, sym_add nsid name ty k l st = Except.ok r →
      j < st.store.length → j ∉ st.temporaries →
      (r.2.store.getD j zeroSym).n = (st.store.getD j zeroSym).n
      ∧ (r.2.store.getD j zeroSym).name = (st.store.getD j zeroSym).name := by
  intro r j h hj hpool
  simp only [sym_add] at h
  split at h
  · exact sym_add_create_slots nsid name ty k l st r j h hj hpool
  · split at h
    · rename_i i st1 heq
      have hst1 : st1 = (sym_lookup nsid name st).2 := by rw [heq]
      have hlen : st1.store.length = st.store.length := by
        rw [hst1]
        exact lookup_store_length nsid name st
      have htmp : st1.temporaries = st.temporaries := by
        rw [hst1]
        exact lookup_temporaries nsid name st
      have hpre1 : (st1.store.getD j zeroSym).n = (st.store.getD j zeroSym).n
          ∧ (st1.store.getD j zeroSym).name = (st.store.getD j zeroSym).name := by
        rw [hst1]
        exact lookup_slots nsid name st j
      have hpre2 := sym_add_found_slots nsid name ty k l st1 i r j h
        (by rw [hlen]; exact hj) (by rw [htmp]; exact hpool)
      exact ⟨hpre2.1.trans hpre1.1, hpre2.2.trans hpre1.2⟩
    · rename_i st1 heq
      have hst1 : st1 = st := by
        have hfst : (sym_lookup nsid name st).1 = none := by rw [heq]
        have := sym_lookup_none_state nsid name st hfst
        rw [heq] at this
        exact this
      subst hst1
      split at h
      · split at h
        · exact sym_add_coerce_slots nsid ty st1 _ r j h hj hpool
        · exact sym_add_create_slots nsid name ty k l st1 r j h hj hpool
      · exact sym_add_create_slots nsid name ty k l st1 r j h hj hpool

theorem tmp_slots (ty : CType) (st : St) (j : Nat) (hj : j < st.store.length)
    (hpool : j ∉ st.temporaries) :
    (sym_create_temporary ty st).2.store.getD j zeroSym = st.store.getD j zeroSym := by
  simp only [sym_create_temporary]
  exact alloc_set_getD_other st _ j hj hpool

theorem unnamed_slots (ty : CType) (st : St) (j : Nat) (hj : j < st.store.length)
    (hpool : j ∉ st.temporaries) :
    (sym_create_unnamed ty st).2.store.getD j zeroSym = st.store.getD j zeroSym := by
  simp only [sym_create_unnamed]
  exact alloc_set_getD_other st _ j hj hpool

theorem label_slots (st : St) (j : Nat) (hj : j < st.store.length)
    (hpool : j ∉ st.temporaries) :
    (sym_create_label st).2.store.getD j zeroSym = st.store.getD j zeroSym := by
  simp only [sym_create_label]
  exact alloc_set_getD_other st _ j hj hpool

theorem constant_slots (ty : CType) (v : Int) (st : St) (j : Nat) (hj : j < st.store.length)
    (hpool : j ∉ st.temporaries) :
    (sym_create_constant ty v st).2.store.getD j zeroSym = st.store.getD j zeroSym := by
  simp only [sym_create_constant]
  exact alloc_set_getD_other st _ j hj hpool

theorem string_slots (w : String) (st : St) (j : Nat) (hj : j < st.store.length)
    (hpool : j ∉ st.temporaries) :
    (sym_create_string w st).2.store.getD j zeroSym = st.store.getD j zeroSym := by
  simp only [sym_create_string]
  exact alloc_set_getD_other st _ j hj hpool

theorem stepOp_nstatic_mono :
    ∀ (op : SOp) (st st' : St), stepOp op st = Except.ok st' → st.n_static ≤ st'.n_static := by
  intro op st st' h
  cases op with
  | push nsid =>
      injection h with h2
      subst h2
      exact Nat.le_of_eq (n_static_push nsid st).symm
  | pop nsid =>
      injection h with h2
      subst h2
      exact Nat.le_of_eq (n_static_pop nsid st).symm
  | lkp nsid name =>
      injection h with h2
      subst h2
      exact Nat.le_of_eq (n_static_lookup nsid name st).symm
  | add nsid name ty k l =>
      simp only [stepOp] at h
      split at h
      · simp at h
      · rename_i r heq
        injection h with h2
        subst h2
        exact sym_add_nstatic_mono nsid name ty k l st r heq
  | mktemp ty =>
      injection h with h2
      subst h2
      exact Nat.le_of_eq (n_static_alloc st).symm
  | mkunnamed ty =>
      injection h with h2
      subst h2
      exact Nat.le_of_eq (n_static_alloc st).symm
  | mklabel =>
      injection h with h2
      subst h2
      exact Nat.le_of_eq (n_static_alloc st).symm
  | mkconstant ty v =>
      injection h with h2
      subst h2
      exact Nat.le_of_eq (n_static_alloc st).symm
  | mkstring v =>
      injection h with h2
      subst h2
      exact Nat.le_of_eq (n_static_alloc st).symm
  | discard i =>
      injection h with h2
      subst h2
      rfl

theorem stepOp_slot_identity :
    ∀ (op : SOp) (st st' : St) (j : Nat), stepOp op st = Except.ok st' →
      j < st.store.length → j ∉ st.temporaries →
      (st'.store.getD j zeroSym).n = (st.store.getD j zeroSym).n
      ∧ (st'.store.getD j zeroSym).name = (st.store.getD j zeroSym).name := by
  intro op st st' j h hj hpool
  cases op with
  | push nsid =>
      injection h with h2
      subst h2
      rw [store_push]
      exact ⟨rfl, rfl⟩
  | pop nsid =>
      injection h with h2
      subst h2
      rw [store_pop]
      exact ⟨rfl, rfl⟩
  | lkp nsid name =>
      injection h with h2
      subst h2
      exact lookup_slots nsid name st j
  | add nsid name ty k l =>
      simp only [stepOp] at h
      split at h
      · simp at h
      · rename_i r heq
        injection h with h2
        subst h2
        exact sym_add_slots nsid name ty k l st r j heq hj hpool
  | mktemp ty =>
      injection h with h2
      subst h2
      rw [tmp_slots ty st j hj hpool]
      exact ⟨rfl, rfl⟩
  | mkunnamed ty =>
      injection h with h2
      subst h2
      rw [unnamed_slots ty st j hj hpool]
      exact ⟨rfl, rfl⟩
  | mklabel =>
      injection h with h2
      subst h2
      rw [label_slots st j hj hpool]
      exact ⟨rfl, rfl⟩
  | mkconstant ty v =>
      injection h with h2
      subst h2
      rw [constant_slots ty v st j hj hpool]
      exact ⟨rfl, rfl⟩
  | mkstring v =>
      injection h with h2
      subst h2
      rw [string_slots v st j hj hpool]
      exact ⟨rfl, rfl⟩
  | discard i =>
      injection h with h2
      subst h2
      exact ⟨rfl, rfl⟩

/-- C6: a symbol created by `sym_add`'s creation tail with internal
linkage at non-zero depth is assigned the freshly incremented
disambiguation counter (the file-static `n`, bumped at that very
creation); the counter never decreases across any public call; no public
call ever rewrites the counter or the name of a live (non-recycled)
symbol record — so counters of distinct such creations are distinct — and
two symbols with the same source name and distinct nonzero counters have
distinct emitted names, while the emitted name is a function of the name
and counter alone (stable across repeated `sym_name` queries). -/
theorem C6_scoped_static_disambiguation :
    (∀ (nsid : NSId) (name : String) (ty : CType) (k : Symtype) (st : St),
      current_scope_depth nsid st ≠ 0 →
      (∀ j ∈ st.temporaries, j < st.store.length) →
      ∀ r, sym_add_create nsid name ty k Linkage.intern st = Except.ok r →
        (r.2.store.getD r.1 zeroSym).n = st.n_static + 1
        ∧ r.2.n_static = st.n_static + 1)
  ∧ (∀ (op : SOp) (st st' : St), stepOp op st = Except.ok st' → st.n_static ≤ st'.n_static)
  ∧ (∀ (op : SOp) (st st' : St) (j : Nat), stepOp op st = Except.ok st' →
      j < st.store.length → j ∉ st.temporaries →
      (st'.store.getD j zeroSym).n = (st.store.getD j zeroSym).n
      ∧ (st'.store.getD j zeroSym).name = (st.store.getD j zeroSym).name)
  ∧ (∀ s1 s2 : Symb, s1.name = s2.name → s1.n ≠ 0 → s2.n ≠ 0 → s1.n ≠ s2.n →
      sym_name s1 ≠ sym_name s2)
  ∧ (∀ s1 s2 : Symb, s1.name = s2.name → s1.n = s2.n → sym_name s1 = sym_name s2) := by
  refine ⟨?_, stepOp_nstatic_mono, stepOp_slot_identity, sym_name_inj_of_ne, sym_name_stable⟩
  intro nsid name ty k st hd hpool r h
  obtain ⟨h1, h2, h3⟩ := sym_add_create_fresh nsid name ty k st hd r h
  obtain ⟨hz, hlt, hrest⟩ := alloc_sym_spec st hpool
  refine ⟨?_, h3⟩
  rw [h1, h2, getD_set_self_gen _ _ _ _ hlt]

/-- The state with two nested identifier scopes (depth 1). -/
def C6st : St := runNew [SOp.push NSId.ident, SOp.push NSId.ident] emptySt

/-- C6 witness: at depth 1, creating `static int buf` assigns counter 1
and bumps the file-static counter; a scope push preserves the counter and
a stored record's identity; and the emitted names `buf.1` and `buf.2`
differ while a same-name-same-counter record renders identically — all by
the claim theorem at concrete inputs. -/
theorem C6_witness :
    (((sym_add_create NSId.ident "buf" int_t Symtype.definition Linkage.intern
          C6st).toOption.getD (0, emptySt)).2.store.getD
        ((sym_add_create NSId.ident "buf" int_t Symtype.definition Linkage.intern
          C6st).toOption.getD (0, emptySt)).1 zeroSym).n = C6st.n_static + 1
  ∧ ((sym_add_create NSId.ident "buf" int_t Symtype.definition Linkage.intern
        C6st).toOption.getD (0, emptySt)).2.n_static = C6st.n_static + 1
  ∧ C4st.n_static ≤ (push_scope NSId.ident C4st).n_static
  ∧ ((push_scope NSId.ident C4st).store.getD 0 zeroSym).n = (C4st.store.getD 0 zeroSym).n
  ∧ sym_name { zeroSym with name := "buf", n := 1 }
      ≠ sym_name { zeroSym with name := "buf", n := 2 }
  ∧ sym_name { zeroSym with name := "buf", n := 3, type := int_t }
      = sym_name { zeroSym with name := "buf", n := 3 } :=
  ⟨(C6_scoped_static_disambiguation.1 NSId.ident "buf" int_t Symtype.definition C6st
      (by decide) (by decide) _ (by decide)).1,
   (C6_scoped_static_disambiguation.1 NSId.ident "buf" int_t Symtype.definition C6st
      (by decide) (by decide) _ (by decide)).2,
   C6_scoped_static_disambiguation.2.1 (SOp.push NSId.ident) C4st _ rfl,
   (C6_scoped_static_disambiguation.2.2.1 (SOp.push NSId.ident) C4st _ 0 rfl
      (by decide) (by decide)).1,
   C6_scoped_static_disambiguation.2.2.2.1 _ _ rfl (by decide) (by decide) (by decide),
   C6_scoped_static_disambiguation.2.2.2.2 _ _ rfl rfl⟩
